import Mathlib

/-! Wortal bid adapter (`modules/wortalAdBidAdapter.js`).

A shallow embedding of the adapter's three operations, `isBidRequestValid`,
`buildRequests` and `interpretResponse`, over a small model of JavaScript
data values, followed by the properties proved about them.

JavaScript is dynamically typed, so every bid request, auction context and
server response is a `JSVal`. An operation that can raise a `TypeError`
returns `Except String`, the string being the error's message.
-/

namespace Wortal

/-! ## JavaScript data values -/

/-- JavaScript data values: the JSON shapes plus `undefined`.

A number is carried by its canonical rendering (what `Number.prototype.toString`
yields, e.g. `"1"`, `"2.5"`, `"NaN"`), which identifies a double up to the sign
of zero. The adapter never computes with a number: it tests truthiness, renders
numbers into the query string and passes them through, and all three are
determined by the rendering.

A string is a sequence of Unicode scalar values, so a string with a lone
surrogate is outside the model. An array is dense (no holes). An object is the
list of its own properties in insertion order; a lookup takes the first entry
with the key. Functions, symbols, accessors and inherited properties are
outside the model. -/
inductive JSVal where
  | undefined : JSVal
  | null : JSVal
  | bool (b : Bool) : JSVal
  | num (lit : String) : JSVal
  | str (s : String) : JSVal
  | arr (items : List JSVal) : JSVal
  | obj (fields : List (String × JSVal)) : JSVal

namespace JSVal

instance : Inhabited JSVal := ⟨JSVal.undefined⟩

/-- The abstract operation `ToBoolean`: `undefined`, `null`, `false`, `0`,
`NaN` and the empty string are falsy, everything else is truthy. -/
def truthy : JSVal → Bool
  | undefined => false
  | null => false
  | bool b => b
  | num lit => !(lit == "0" || lit == "NaN")
  | str s => !(s == "")
  | arr _ => true
  | obj _ => true

/-- Whether a value is `undefined` or `null` (reading a property of such a
value raises a `TypeError`). -/
def isNullish : JSVal → Bool
  | undefined => true
  | null => true
  | _ => false

/-- Own-property lookup in an object's field list: the first entry with the key. -/
def lookup (k : String) : List (String × JSVal) → Option JSVal
  | [] => none
  | (k', v) :: rest => if k' = k then some v else lookup k rest

/-- Element `n` of an array, `undefined` past the end. -/
def nth : List JSVal → Nat → JSVal
  | [], _ => undefined
  | x :: _, 0 => x
  | _ :: xs, n + 1 => nth xs n

/-- The `length` of a string: its number of UTF-16 code units. -/
def utf16Length (s : String) : Nat :=
  s.data.foldl (fun n c => n + (if c.toNat < 0x10000 then 1 else 2)) 0

/-- Property read `v.k` for a property name `k` that is not an array index.
Raises on `undefined` and `null`; a missing property reads as `undefined`.
Arrays and strings have the own property `length`. -/
def get (v : JSVal) (k : String) : Except String JSVal :=
  match v with
  | undefined => .error ("TypeError: cannot read properties of undefined (reading " ++ k ++ ")")
  | null => .error ("TypeError: cannot read properties of null (reading " ++ k ++ ")")
  | bool _ => .ok undefined
  | num _ => .ok undefined
  | str s => if k = "length" then .ok (num (toString (utf16Length s))) else .ok undefined
  | arr xs => if k = "length" then .ok (num (toString xs.length)) else .ok undefined
  | obj fs => .ok ((lookup k fs).getD undefined)

/-- Indexed read `v[n]` for a literal index `n`. Raises on `undefined` and
`null`; an array yields its element, a string its `n`-th character (exact for
a string of characters below U+10000, one code unit each), an object the
property named by the decimal rendering of `n`. -/
def getIndex (v : JSVal) (n : Nat) : Except String JSVal :=
  match v with
  | undefined => .error ("TypeError: cannot read properties of undefined (reading " ++ toString n ++ ")")
  | null => .error ("TypeError: cannot read properties of null (reading " ++ toString n ++ ")")
  | bool _ => .ok undefined
  | num _ => .ok undefined
  | str s => .ok (match s.data.get? n with
      | some c => str (String.singleton c)
      | none => undefined)
  | arr xs => .ok (nth xs n)
  | obj fs => .ok ((lookup (toString n) fs).getD undefined)

/-- Property read `v.k` on a value known not to be `undefined` or `null`, where
the read cannot raise. -/
def field (v : JSVal) (k : String) : JSVal :=
  match v.get k with
  | .ok x => x
  | .error _ => undefined

mutual
/-- The abstract operation `ToString`, as a template literal applies it. -/
def toStr : JSVal → String
  | undefined => "undefined"
  | null => "null"
  | bool true => "true"
  | bool false => "false"
  | num lit => lit
  | str s => s
  | arr xs => joinItems xs
  | obj _ => "[object Object]"
/-- Rendering of an array, `Array.prototype.join` with the separator `,`: the
elements' renderings, `undefined` and `null` rendered empty. -/
def joinItems : List JSVal → String
  | [] => ""
  | [x] => itemStr x
  | x :: y :: rest => itemStr x ++ "," ++ joinItems (y :: rest)
/-- Rendering of one array element inside `join`. -/
def itemStr : JSVal → String
  | undefined => ""
  | null => ""
  | bool true => "true"
  | bool false => "false"
  | num lit => lit
  | str s => s
  | arr xs => joinItems xs
  | obj _ => "[object Object]"
end

end JSVal

open JSVal

/-! ## Host utilities -/

/-- Modelled from the spec: the host's `deepAccess` of `src/utils.js`, a nested
optional lookup. The path is the list of segments of the dotted string
(`'gdprConsent.gdprApplies'` is `["gdprConsent", "gdprApplies"]`); each step
reads the property when the value so far is truthy and yields `undefined`
otherwise, so the lookup never raises. -/
def deepAccess (o : JSVal) : List String → JSVal
  | [] => o
  | k :: ks =>
    deepAccess (if o.truthy then o.field k else undefined) ks

/-- Modelled from the spec: the host's `formatQS` of `src/utils.js`, given the
entries of the query object in insertion order: each entry is written
`key=value`, the value rendered as a template literal renders it, and the
entries are joined by `&`. Nothing is escaped. -/
def formatQS : List (String × JSVal) → String
  | [] => ""
  | [(k, v)] => k ++ "=" ++ toStr v
  | (k, v) :: e :: rest => k ++ "=" ++ toStr v ++ "&" ++ formatQS (e :: rest)

/-- Modelled from the spec: the host constant `BANNER` of `src/mediaTypes.js`. -/
def BANNER : String := "banner"

/-! ## The adapter -/

def BIDDER_CODE : String := "wortal"
def BIDDER_URL : String := "https://ads.wortal.ai/api/v1/prebid/bid/"
def DEFAULT_TTL : JSVal := num "180"
def DEFAULT_CURRENCY : String := "USD"
def SUPPORTED_MEDIA_TYPES : List String := [BANNER]

/-- The result of `isBidRequestValid`: the returned boolean and the warnings
handed to the host's `logWarn`, each the list of its arguments. -/
structure Validation where
  valid : Bool
  warnings : List (List String)

/-- The adapter's `isBidRequestValid` (lines 15-33). -/
def isBidRequestValid (bid : JSVal) : Except String Validation := do
  let params ← bid.get "params"
  if !params.truthy then
    return ⟨false, [[BIDDER_CODE, "params is required."]]⟩
  let adUnitId ← params.get "adUnitId"
  if !adUnitId.truthy then
    return ⟨false, [[BIDDER_CODE, "adUnitId is required."]]⟩
  let pageId ← params.get "pageId"
  if !pageId.truthy then
    return ⟨false, [[BIDDER_CODE, "pageId is required."]]⟩
  return ⟨true, []⟩

/-- `Array.prototype.map` over a dense array with a callback that may raise:
the callback runs on the elements from left to right and the first error
aborts the whole call. -/
def arrayMap (f : JSVal → Except String JSVal) : List JSVal → Except String (List JSVal)
  | [] => .ok []
  | x :: xs =>
    match f x with
    | .error e => .error e
    | .ok y =>
      match arrayMap f xs with
      | .error e => .error e
      | .ok ys => .ok (y :: ys)

/-- The method call `v.map(f)`: raises when `v` is `undefined` or `null`, and
when `v` is not an array (no data value other than an array has a callable
`map`). -/
def callMap (v : JSVal) (f : JSVal → Except String JSVal) : Except String (List JSVal) :=
  match v with
  | undefined => .error "TypeError: cannot read properties of undefined (reading map)"
  | null => .error "TypeError: cannot read properties of null (reading map)"
  | arr xs => arrayMap f xs
  | _ => .error "TypeError: map is not a function"

/-- Assignment `o[k] = v` on a field list: an existing entry keeps its place,
a new key goes to the end. -/
def setField (k : String) (v : JSVal) : List (String × JSVal) → List (String × JSVal)
  | [] => [(k, v)]
  | (k', v') :: rest => if k' = k then (k, v) :: rest else (k', v') :: setField k v rest

/-- The adapter's `mapBanner` (lines 112-126). A function that ends without
`return` yields `undefined`. -/
def mapBanner (bidRequest : JSVal) : Except String JSVal := do
  if (deepAccess bidRequest ["mediaTypes", "banner"]).truthy then
    let own ← bidRequest.get "sizes"
    let sizes ← (if own.truthy then pure own else do
      let mediaTypes ← bidRequest.get "mediaTypes"
      let banner ← mediaTypes.get "banner"
      banner.get "sizes")
    let format ← callMap sizes (fun size => do
      let w ← size.getIndex 0
      let h ← size.getIndex 1
      return obj [("w", w), ("h", h)])
    let first := nth format 0
    let w ← first.get "w"
    let h ← first.get "h"
    return obj [("w", w), ("h", h)]
  else
    return undefined

/-- The query object of one outbound request (lines 62-72 of `buildRequests`),
as its entries in insertion order. -/
def queryParams (pageId adUnitId bidderRequest : JSVal) : List (String × JSVal) :=
  let queryParams := [("pageId", pageId), ("adUnitId", adUnitId)]
  let gdprApplies := (deepAccess bidderRequest ["gdprConsent", "gdprApplies"]).truthy
  if gdprApplies then
    let consentString := deepAccess bidderRequest ["gdprConsent", "consentString"]
    setField "tcf-consent" consentString (setField "gdpr" (num "1") queryParams)
  else
    queryParams

/-- The callback of `validBidRequests.map` in `buildRequests` (lines 58-103),
closed over `referrer`, `domain`, `page`, `timeout` and `bidderRequest`. -/
def buildRequest (referrer domain page timeout bidderRequest bidRequest : JSVal) :
    Except String JSVal := do
  let params ← bidRequest.get "params"
  let pageId ← params.get "pageId"
  let adUnitId ← params.get "adUnitId"
  let queryParams := queryParams pageId adUnitId bidderRequest
  let banner ← mapBanner bidRequest
  let imp := obj [("id", adUnitId), ("banner", banner)]
  let bidId ← bidRequest.get "bidId"
  let data := obj [
    ("id", bidId),
    ("imp", arr [imp]),
    ("site", obj [("ref", referrer), ("page", page), ("domain", domain)]),
    ("tmax", timeout)]
  let queryParamsString := formatQS queryParams
  return obj [
    ("method", str "POST"),
    ("url", str (BIDDER_URL ++ ("?" ++ queryParamsString))),
    ("data", data),
    ("options", obj [
      ("contentType", str "application/json"),
      ("customHeaders", obj [("x-openrtb-version", num "2.5")])]),
    ("bidRequest", bidRequest)]

/-- The values `referrer`, `domain`, `page` that `buildRequests` takes from the
auction context (lines 43-51). `a && b` is `a` when `a` is falsy, else `b`. -/
def refererFields (bidderRequest : JSVal) : Except String (JSVal × JSVal × JSVal) := do
  let cond ← (if bidderRequest.truthy then bidderRequest.get "refererInfo" else pure bidderRequest)
  if cond.truthy then
    let referrer ← (← bidderRequest.get "refererInfo").get "ref"
    let domain ← (← bidderRequest.get "refererInfo").get "domain"
    let page ← (← bidderRequest.get "refererInfo").get "page"
    return (referrer, domain, page)
  else
    return (str "", str "", str "")

/-- The adapter's `buildRequests` (lines 42-104). The host passes the valid bid
requests as an array. -/
def buildRequests (validBidRequests : List JSVal) (bidderRequest : JSVal) :
    Except String (List JSVal) := do
  let (referrer, domain, page) ← refererFields bidderRequest
  let timeout ← (if bidderRequest.truthy then bidderRequest.get "timeout" else pure null)
  arrayMap (buildRequest referrer domain page timeout bidderRequest) validBidRequests

/-! ### The comparison `x > 0` -/

/-- White space and line terminators, which `StringToNumber` strips from both
ends of a string. -/
def isStrWhiteSpace (c : Char) : Bool :=
  let n := c.toNat
  n = 0x09 || n = 0x0A || n = 0x0B || n = 0x0C || n = 0x0D || n = 0x20 || n = 0xA0 ||
  n = 0x1680 || (0x2000 ≤ n && n ≤ 0x200A) || n = 0x2028 || n = 0x2029 || n = 0x202F ||
  n = 0x205F || n = 0x3000 || n = 0xFEFF

/-- Value of a run of decimal digits. -/
def digitsVal (ds : List Char) : Nat :=
  ds.foldl (fun acc c => 10 * acc + (c.toNat - 48)) 0

/-- Whether `m * 10 ^ e` rounds to a double greater than zero: it is positive
and above `2 ^ (-1075)`, half of the least positive double. -/
def scaledPositive (m : Nat) (e : Int) : Bool :=
  decide (0 < m) && (decide (0 ≤ e) || decide (10 ^ (-e).toNat < m * 2 ^ 1075))

/-- Whether an unsigned decimal literal of the `StringToNumber` grammar
(`Infinity`, or digits with an optional fraction and exponent) denotes a number
greater than zero; `false` when the characters are no such literal. -/
def decimalPositive (cs : List Char) : Bool :=
  if cs = "Infinity".data then true else
  let ip := cs.takeWhile Char.isDigit
  let r1 := cs.dropWhile Char.isDigit
  let fp := match r1 with
    | '.' :: t => t.takeWhile Char.isDigit
    | _ => []
  let r2 := match r1 with
    | '.' :: t => t.dropWhile Char.isDigit
    | _ => r1
  if ip.isEmpty && fp.isEmpty then false else
  let m := digitsVal (ip ++ fp)
  match r2 with
  | [] => scaledPositive m (-(fp.length : Int))
  | c :: t =>
    if c = 'e' || c = 'E' then
      let neg := match t with
        | '-' :: _ => true
        | _ => false
      let ds := match t with
        | '+' :: d => d
        | '-' :: d => d
        | d => d
      if ds.isEmpty || !ds.all Char.isDigit then false
      else scaledPositive m
        ((if neg then -(digitsVal ds : Int) else (digitsVal ds : Int)) - (fp.length : Int))
    else false

/-- Whether a binary, octal or hexadecimal digit run denotes a number greater
than zero. -/
def radixPositive (isDig : Char → Bool) (ds : List Char) : Bool :=
  !ds.isEmpty && ds.all isDig && ds.any (fun c => c != '0')

/-- Whether `StringToNumber` of a string is a number greater than zero (`NaN`,
the value of a string that is no numeric literal, is not). -/
def numericPositive (s : String) : Bool :=
  let cs := ((s.data.dropWhile isStrWhiteSpace).reverse.dropWhile isStrWhiteSpace).reverse
  match cs with
  | '0' :: 'x' :: ds => radixPositive (fun c => c.isDigit || ('a' ≤ c && c ≤ 'f') || ('A' ≤ c && c ≤ 'F')) ds
  | '0' :: 'X' :: ds => radixPositive (fun c => c.isDigit || ('a' ≤ c && c ≤ 'f') || ('A' ≤ c && c ≤ 'F')) ds
  | '0' :: 'o' :: ds => radixPositive (fun c => '0' ≤ c && c ≤ '7') ds
  | '0' :: 'O' :: ds => radixPositive (fun c => '0' ≤ c && c ≤ '7') ds
  | '0' :: 'b' :: ds => radixPositive (fun c => c = '0' || c = '1') ds
  | '0' :: 'B' :: ds => radixPositive (fun c => c = '0' || c = '1') ds
  | '+' :: r => decimalPositive r
  | '-' :: _ => false
  | r => decimalPositive r

/-- The comparison `v > 0`: `v` is converted to a number (an array through its
rendering, an object to `NaN`) and compared with zero. -/
def gtZero : JSVal → Bool
  | undefined => false
  | null => false
  | .bool b => b
  | num lit => numericPositive lit
  | str s => numericPositive s
  | arr xs => numericPositive (toStr (arr xs))
  | obj _ => false

/-- The expression `v.length > 0`. It raises on `undefined` and `null`; an
array or a string is compared by its number of elements or characters, an
object by its own `length` property. -/
def lengthPositive (v : JSVal) : Except String Bool :=
  match v with
  | undefined => .error "TypeError: cannot read properties of undefined (reading length)"
  | null => .error "TypeError: cannot read properties of null (reading length)"
  | .bool _ => .ok false
  | num _ => .ok false
  | str s => .ok (decide (0 < s.length))
  | arr xs => .ok (decide (0 < xs.length))
  | obj fs => .ok (gtZero ((lookup "length" fs).getD undefined))

/-- The expression for `meta.advertiserDomains` (line 161 of
`interpretResponse`): `a && b` is evaluated left to right and `b` only when `a`
is truthy. -/
def advertiserDomains (bidReceived : JSVal) : Except String JSVal := do
  let adomain ← bidReceived.get "adomain"
  let nonEmpty ← (if adomain.truthy then do lengthPositive (← bidReceived.get "adomain")
    else pure false)
  if nonEmpty then bidReceived.get "adomain" else pure (arr [])

/-- The adapter's `interpretResponse` (lines 135-168). The second parameter is
destructured on entry, before the body runs. -/
def interpretResponse (serverResponse request : JSVal) : Except String (List JSVal) := do
  let bidRequest ← request.get "bidRequest"
  let response ← serverResponse.get "body"
  if !(← response.get "bid").truthy then
    return []
  let bid ← (← serverResponse.get "body").get "bid"
  let bidReceived := bid
  let cur ← bid.get "cur"
  let currency := if cur.truthy then cur else str DEFAULT_CURRENCY
  let price ← bidReceived.get "cpm"
  let requestId ← bidRequest.get "bidId"
  let width ← bidReceived.get "width"
  let height ← bidReceived.get "height"
  let creativeId ← bidReceived.get "creative_id"
  let ad ← bidReceived.get "ad"
  let advertiserDomains ← advertiserDomains bidReceived
  let prBid := obj [
    ("requestId", requestId),
    ("cpm", price),
    ("currency", currency),
    ("width", width),
    ("height", height),
    ("creativeId", creativeId),
    ("mediaType", str BANNER),
    ("ad", ad),
    ("netRevenue", JSVal.bool true),
    ("ttl", DEFAULT_TTL),
    ("meta", obj [("advertiserDomains", advertiserDomains)])]
  return [prBid]

/-! ## Derived descriptions used in the statements -/

/-- The bid object `interpretResponse` builds (lines 148-163) from the
response's bid, the bid request's identifier and the advertiser domains. -/
def prBidOf (bid requestId adv : JSVal) : JSVal :=
  obj [
    ("requestId", requestId),
    ("cpm", bid.field "cpm"),
    ("currency", if (bid.field "cur").truthy then bid.field "cur" else str DEFAULT_CURRENCY),
    ("width", bid.field "width"),
    ("height", bid.field "height"),
    ("creativeId", bid.field "creative_id"),
    ("mediaType", str BANNER),
    ("ad", bid.field "ad"),
    ("netRevenue", JSVal.bool true),
    ("ttl", DEFAULT_TTL),
    ("meta", obj [("advertiserDomains", adv)])]

/-- The size list `mapBanner` reads (line 114): the request's own `sizes` when
it is truthy, as every list is, and `mediaTypes.banner.sizes` otherwise. -/
def effectiveSizes (bidRequest : JSVal) : JSVal :=
  if (bidRequest.field "sizes").truthy then bidRequest.field "sizes"
  else ((bidRequest.field "mediaTypes").field "banner").field "sizes"

/-- The outbound request `buildRequests` emits for one bid request (lines
79-102), from the values read on the way. -/
def outboundOf (referrer domain page timeout bidderRequest bidRequest
    pageId adUnitId banner bidId : JSVal) : JSVal :=
  obj [
    ("method", str "POST"),
    ("url", str (BIDDER_URL ++ ("?" ++ formatQS (queryParams pageId adUnitId bidderRequest)))),
    ("data", obj [
      ("id", bidId),
      ("imp", arr [obj [("id", adUnitId), ("banner", banner)]]),
      ("site", obj [("ref", referrer), ("page", page), ("domain", domain)]),
      ("tmax", timeout)]),
    ("options", obj [
      ("contentType", str "application/json"),
      ("customHeaders", obj [("x-openrtb-version", num "2.5")])]),
    ("bidRequest", bidRequest)]

/-- The values of `referrer`, `domain` and `page` after lines 43-51: the
context's `refererInfo.ref`, `refererInfo.domain` and `refererInfo.page` when
the context and its `refererInfo` are truthy, three empty strings otherwise. -/
def refererValues (bidderRequest : JSVal) : JSVal × JSVal × JSVal :=
  if bidderRequest.truthy && (bidderRequest.field "refererInfo").truthy then
    ((bidderRequest.field "refererInfo").field "ref",
     (bidderRequest.field "refererInfo").field "domain",
     (bidderRequest.field "refererInfo").field "page")
  else (str "", str "", str "")

/-- The value of `timeout` after lines 53-56: the context's `timeout` when the
context is truthy, `null` otherwise. -/
def timeoutValue (bidderRequest : JSVal) : JSVal :=
  if bidderRequest.truthy then bidderRequest.field "timeout" else null

/-- The callback `mapBanner` maps over the size list (lines 115-118). -/
def sizeFormat (size : JSVal) : Except String JSVal := do
  let w ← size.getIndex 0
  let h ← size.getIndex 1
  return obj [("w", w), ("h", h)]

/-- Whether a bid request declares banner support: `mapBanner` finds a truthy
`mediaTypes.banner` (line 113). -/
def declaresBanner (bidRequest : JSVal) : Bool :=
  (deepAccess bidRequest ["mediaTypes", "banner"]).truthy

/-- Whether a bid request carries `params`: the request is an object whose
`params` is neither `undefined` nor `null`. -/
def carriesParams (bidRequest : JSVal) : Bool :=
  match bidRequest.get "params" with
  | .ok params => !params.isNullish
  | .error _ => false

/-- Whether the size list `mapBanner` reads is empty or missing. -/
def sizeListEmptyOrMissing (bidRequest : JSVal) : Bool :=
  match effectiveSizes bidRequest with
  | undefined => true
  | null => true
  | arr [] => true
  | _ => false

/-- Whether the size list `mapBanner` reads has the type of the data model:
it is missing, or it is a list none of whose entries is `undefined` or `null`
(each entry being a `[width, height]` pair). -/
def sizeListTyped (bidRequest : JSVal) : Bool :=
  match effectiveSizes bidRequest with
  | undefined => true
  | null => true
  | arr sizes => sizes.all (fun size => !size.isNullish)
  | _ => false

/-- Whether `mapBanner` cannot build a banner from the size list it reads: the
value is not a list (a missing list included), the list is empty, or one of
its entries is `undefined` or `null`. -/
def sizeListUnusable (bidRequest : JSVal) : Bool :=
  match effectiveSizes bidRequest with
  | arr sizes => sizes.isEmpty || sizes.any (fun size => size.isNullish)
  | _ => true

/-! ## Sample inputs -/

/-- A bid request with two banner sizes. -/
def sampleBidRequest : JSVal :=
  obj [
    ("bidId", str "b1"),
    ("params", obj [("adUnitId", str "unit-1"), ("pageId", str "page-1")]),
    ("mediaTypes", obj [("banner", obj [
      ("sizes", arr [arr [num "300", num "250"], arr [num "728", num "90"]])])])]

/-- An auction context in which consent applies. -/
def sampleContext : JSVal :=
  obj [
    ("refererInfo", obj [
      ("ref", str "https://ref.example"),
      ("page", str "https://example.com/a"),
      ("domain", str "example.com")]),
    ("gdprConsent", obj [("gdprApplies", JSVal.bool true), ("consentString", str "CS")]),
    ("timeout", num "1000")]

/-- The outbound request built for `sampleBidRequest` in `sampleContext`. -/
def sampleOutbound : JSVal :=
  obj [
    ("method", str "POST"),
    ("url", str
      "https://ads.wortal.ai/api/v1/prebid/bid/?pageId=page-1&adUnitId=unit-1&gdpr=1&tcf-consent=CS"),
    ("data", obj [
      ("id", str "b1"),
      ("imp", arr [obj [
        ("id", str "unit-1"),
        ("banner", obj [("w", num "300"), ("h", num "250")])]]),
      ("site", obj [
        ("ref", str "https://ref.example"),
        ("page", str "https://example.com/a"),
        ("domain", str "example.com")]),
      ("tmax", num "1000")]),
    ("options", obj [
      ("contentType", str "application/json"),
      ("customHeaders", obj [("x-openrtb-version", num "2.5")])]),
    ("bidRequest", sampleBidRequest)]

/-- The bid of the sample server response. -/
def sampleBid : JSVal :=
  obj [
    ("cpm", num "2.5"),
    ("width", num "300"),
    ("height", num "250"),
    ("creative_id", str "c1"),
    ("ad", str "<div/>"),
    ("adomain", arr [str "ex.com"])]

/-- A server response that carries `sampleBid`. -/
def sampleResponse : JSVal :=
  obj [("body", obj [("bid", sampleBid)])]

/-- A bid request whose `adUnitId` is present and is the empty string. -/
def emptyAdUnitRequest : JSVal :=
  obj [
    ("bidId", str "b2"),
    ("params", obj [("adUnitId", str ""), ("pageId", str "page-1")])]

/-- A response bid that has only its markup: price, dimensions and creative
identifier are missing. -/
def bareBid : JSVal :=
  obj [("ad", str "<div/>")]

/-- A bid request whose own `sizes` is the empty list while
`mediaTypes.banner.sizes` is not. -/
def emptySizesRequest : JSVal :=
  obj [
    ("bidId", str "b4"),
    ("params", obj [("adUnitId", str "unit-1"), ("pageId", str "page-1")]),
    ("sizes", arr []),
    ("mediaTypes", obj [("banner", obj [("sizes", arr [arr [num "300", num "250"]])])])]

/-- A bid request that declares no banner support and has sizes of its own. -/
def noBannerRequest : JSVal :=
  obj [
    ("bidId", str "b5"),
    ("params", obj [("adUnitId", str "unit-5"), ("pageId", str "page-1")]),
    ("sizes", arr [arr [num "300", num "250"]])]

/-- An originating request that shares only the `bidId` with `sampleOutbound`. -/
def otherOutbound : JSVal :=
  obj [
    ("url", str "https://other.example/"),
    ("bidRequest", obj [
      ("bidId", str "b1"),
      ("sizes", arr [arr [num "970", num "250"]])])]

/-- A bid request whose banner size list has a `null` entry after a pair. -/
def nullEntrySizesRequest : JSVal :=
  obj [
    ("bidId", str "b6"),
    ("params", obj [("adUnitId", str "unit-1"), ("pageId", str "page-1")]),
    ("mediaTypes", obj [("banner", obj [
      ("sizes", arr [arr [num "300", num "250"], null])])])]

/-- A bid request whose `pageId` is present and is the number zero. -/
def zeroPageIdRequest : JSVal :=
  obj [
    ("bidId", str "b7"),
    ("params", obj [("adUnitId", str "unit-1"), ("pageId", num "0")])]

/-! ## Auxiliary lemmas -/

theorem get_of_truthy (v : JSVal) (k : String) (h : v.truthy = true) :
    v.get k = .ok (v.field k) := by
  cases v <;> simp_all [JSVal.get, JSVal.field, JSVal.truthy] <;> split <;> rfl

theorem get_ok_field (v x : JSVal) (k : String) (h : v.get k = .ok x) : v.field k = x := by
  simp [JSVal.field, h]

theorem lengthPositive_of_truthy (v : JSVal) (h : v.truthy = true) :
    ∃ t, lengthPositive v = .ok t := by
  cases v <;> simp_all [lengthPositive, JSVal.truthy]

theorem advertiserDomains_total (b : JSVal) (h : b.truthy = true) :
    ∃ adv, advertiserDomains b = .ok adv := by
  unfold advertiserDomains
  simp only [get_of_truthy b _ h, bind, Except.bind, pure, Except.pure]
  by_cases ha : (b.field "adomain").truthy = true
  · obtain ⟨t, ht⟩ := lengthPositive_of_truthy _ ha
    simp only [ha, ht, if_true]
    cases t <;> simp
  · simp [ha]

theorem interpretResponse_bid (resp req body bid br id : JSVal)
    (hbody : resp.get "body" = .ok body) (hbid : body.get "bid" = .ok bid)
    (ht : bid.truthy = true) (hbr : req.get "bidRequest" = .ok br)
    (hid : br.get "bidId" = .ok id) :
    ∃ adv, advertiserDomains bid = .ok adv ∧
      interpretResponse resp req = .ok [prBidOf bid id adv] := by
  obtain ⟨adv, hadv⟩ := advertiserDomains_total bid ht
  refine ⟨adv, hadv, ?_⟩
  unfold interpretResponse
  simp [hbody, hbid, ht, hbr, hid, hadv, get_of_truthy bid _ ht, bind, Except.bind, pure,
    Except.pure, prBidOf]

theorem interpretResponse_no_bid (resp req body bid br : JSVal)
    (hbody : resp.get "body" = .ok body) (hbid : body.get "bid" = .ok bid)
    (ht : bid.truthy = false) (hbr : req.get "bidRequest" = .ok br) :
    interpretResponse resp req = .ok [] := by
  unfold interpretResponse
  simp [hbody, hbid, ht, hbr, bind, Except.bind, pure, Except.pure]

theorem interpretResponse_length (resp req : JSVal) (xs : List JSVal)
    (h : interpretResponse resp req = .ok xs) : xs.length ≤ 1 := by
  cases hbr : req.get "bidRequest" with
  | error e => simp [interpretResponse, hbr, bind, Except.bind] at h
  | ok br =>
    cases hbody : resp.get "body" with
    | error e => simp [interpretResponse, hbr, hbody, bind, Except.bind] at h
    | ok body =>
      cases hbid : body.get "bid" with
      | error e => simp [interpretResponse, hbr, hbody, hbid, bind, Except.bind] at h
      | ok bid =>
        cases ht : bid.truthy with
        | false =>
          rw [interpretResponse_no_bid resp req body bid br hbody hbid ht hbr] at h
          cases h; simp
        | true =>
          cases hid : br.get "bidId" with
          | error e =>
            simp [interpretResponse, hbr, hbody, hbid, ht, hid, get_of_truthy bid _ ht, bind,
              Except.bind, pure, Except.pure] at h
          | ok id =>
            obtain ⟨adv, _, hres⟩ := interpretResponse_bid resp req body bid br id hbody hbid ht hbr hid
            rw [hres] at h
            cases h; simp

theorem bind_eq_ok {α β : Type} (x : Except String α) (f : α → Except String β) (b : β) :
    (x >>= f) = .ok b ↔ ∃ a, x = .ok a ∧ f a = .ok b := by
  cases x <;> simp [bind, Except.bind]

theorem deepAccess_undefined (ks : List String) : deepAccess undefined ks = undefined := by
  induction ks with
  | nil => rfl
  | cons k ks ih => simpa [deepAccess, JSVal.truthy] using ih

theorem truthy_of_deepAccess (o : JSVal) (k : String) (ks : List String)
    (h : (deepAccess o (k :: ks)).truthy = true) :
    o.truthy = true ∧ (deepAccess (o.field k) ks).truthy = true := by
  cases ho : o.truthy with
  | false =>
    simp only [deepAccess, ho] at h
    simp [deepAccess_undefined, JSVal.truthy] at h
  | true =>
    simp only [deepAccess, ho] at h
    exact ⟨rfl, by simpa using h⟩

theorem ok_bind {α β : Type} (a : α) (f : α → Except String β) :
    ((Except.ok a : Except String α) >>= f) = f a := rfl

theorem arrayMap_cons_ok (f : JSVal → Except String JSVal) (x : JSVal) (xs ys : List JSVal)
    (h : arrayMap f (x :: xs) = .ok ys) :
    ∃ y ys', f x = .ok y ∧ arrayMap f xs = .ok ys' ∧ ys = y :: ys' := by
  rw [arrayMap] at h
  cases hx : f x with
  | error e => simp [hx] at h
  | ok y =>
    cases hxs : arrayMap f xs with
    | error e => simp [hx, hxs] at h
    | ok ys' =>
      simp only [hx, hxs] at h
      cases h
      exact ⟨y, ys', rfl, rfl, rfl⟩

theorem callMap_arr (f : JSVal → Except String JSVal) (xs : List JSVal) :
    callMap (arr xs) f = arrayMap f xs := rfl

theorem mapBanner_banner (r b : JSVal)
    (hb : (deepAccess r ["mediaTypes", "banner"]).truthy = true)
    (h : mapBanner r = .ok b) :
    ∃ first rest w h, effectiveSizes r = arr (first :: rest) ∧
      first.getIndex 0 = .ok w ∧ first.getIndex 1 = .ok h ∧
      b = obj [("w", w), ("h", h)] := by
  obtain ⟨hr, h1⟩ := truthy_of_deepAccess _ _ _ hb
  obtain ⟨hm, h2⟩ := truthy_of_deepAccess _ _ _ h1
  simp only [deepAccess] at h2
  unfold mapBanner at h
  simp only [hb, if_true, get_of_truthy r _ hr, ok_bind] at h
  obtain ⟨sizes, hsizes, h⟩ := (bind_eq_ok _ _ _).1 h
  have hs : sizes = effectiveSizes r := by
    unfold effectiveSizes
    by_cases ho : (r.field "sizes").truthy = true
    · simp only [ho, if_true] at hsizes ⊢
      cases hsizes; rfl
    · simp only [ho, get_of_truthy _ _ hm, get_of_truthy _ _ h2, ok_bind] at hsizes ⊢
      cases hsizes; rfl
  obtain ⟨format, hformat, h⟩ := (bind_eq_ok _ _ _).1 h
  obtain ⟨w, hw, h⟩ := (bind_eq_ok _ _ _).1 h
  obtain ⟨h', hh, h⟩ := (bind_eq_ok _ _ _).1 h
  cases h
  rw [← hs]
  cases sizes with
  | arr xs =>
    cases xs with
    | nil =>
      simp only [callMap, arrayMap] at hformat
      cases hformat
      simp [nth, JSVal.get] at hw
    | cons first rest =>
      rw [callMap_arr] at hformat
      obtain ⟨y, ys, hf, -, rfl⟩ := arrayMap_cons_ok _ _ _ _ hformat
      obtain ⟨w0, hw0, hf⟩ := (bind_eq_ok _ _ _).1 hf
      obtain ⟨h0, hh0, hf⟩ := (bind_eq_ok _ _ _).1 hf
      cases hf
      simp only [nth, JSVal.get, JSVal.lookup] at hw hh
      simp at hw hh
      subst hw hh
      exact ⟨first, rest, w0, h0, rfl, hw0, hh0, rfl⟩
  | _ => simp [callMap] at hformat

theorem arrayMap_getElem (f : JSVal → Except String JSVal) (xs ys : List JSVal)
    (h : arrayMap f xs = .ok ys) :
    ys.length = xs.length ∧
      ∀ (i : Nat) (x : JSVal), xs[i]? = some x → ∃ y, ys[i]? = some y ∧ f x = .ok y := by
  induction xs generalizing ys with
  | nil =>
    simp only [arrayMap] at h
    cases h
    simp
  | cons a as ih =>
    obtain ⟨y, ys', hy, hys, rfl⟩ := arrayMap_cons_ok _ _ _ _ h
    obtain ⟨hl, hi⟩ := ih ys' hys
    refine ⟨by simp [hl], ?_⟩
    intro i x hx
    cases i with
    | zero =>
      simp only [List.getElem?_cons_zero, Option.some.injEq] at hx
      subst hx
      exact ⟨y, by simp, hy⟩
    | succ n =>
      simp only [List.getElem?_cons_succ] at hx
      obtain ⟨y', hy', hf⟩ := hi n x hx
      exact ⟨y', by simpa using hy', hf⟩

theorem buildRequest_ok (referrer domain page timeout c r out : JSVal)
    (h : buildRequest referrer domain page timeout c r = .ok out) :
    ∃ params pageId adUnitId banner bidId,
      r.get "params" = .ok params ∧ params.get "pageId" = .ok pageId ∧
      params.get "adUnitId" = .ok adUnitId ∧ mapBanner r = .ok banner ∧
      r.get "bidId" = .ok bidId ∧
      out = outboundOf referrer domain page timeout c r pageId adUnitId banner bidId := by
  unfold buildRequest at h
  obtain ⟨params, hp, h⟩ := (bind_eq_ok _ _ _).1 h
  obtain ⟨pageId, hpg, h⟩ := (bind_eq_ok _ _ _).1 h
  obtain ⟨adUnitId, hau, h⟩ := (bind_eq_ok _ _ _).1 h
  obtain ⟨banner, hban, h⟩ := (bind_eq_ok _ _ _).1 h
  obtain ⟨bidId, hid, h⟩ := (bind_eq_ok _ _ _).1 h
  cases h
  exact ⟨params, pageId, adUnitId, banner, bidId, hp, hpg, hau, hban, hid, rfl⟩

theorem refererFields_total (c : JSVal) : ∃ t, refererFields c = .ok t := by
  unfold refererFields
  cases hc : c.truthy with
  | false =>
    simp only [Bool.false_eq_true, if_false, pure, Except.pure, ok_bind, hc]
    exact ⟨_, rfl⟩
  | true =>
    simp only [if_true, get_of_truthy c _ hc, ok_bind]
    cases hi : (c.field "refererInfo").truthy with
    | false =>
      simp only [Bool.false_eq_true, if_false, pure, Except.pure]
      exact ⟨_, rfl⟩
    | true =>
      simp only [if_true, get_of_truthy _ _ hi, ok_bind, pure, Except.pure]
      exact ⟨_, rfl⟩

theorem buildRequests_ok (rs outs : List JSVal) (c : JSVal)
    (h : buildRequests rs c = .ok outs) :
    ∃ referrer domain page timeout,
      arrayMap (buildRequest referrer domain page timeout c) rs = .ok outs := by
  unfold buildRequests at h
  obtain ⟨⟨referrer, domain, page⟩, -, h⟩ := (bind_eq_ok _ _ _).1 h
  obtain ⟨timeout, -, h⟩ := (bind_eq_ok _ _ _).1 h
  exact ⟨referrer, domain, page, timeout, h⟩

/-- Every outbound request of a successful `buildRequests` is the one
`outboundOf` describes for the bid request at the same position. -/
theorem buildRequests_getElem (rs outs : List JSVal) (c : JSVal)
    (h : buildRequests rs c = .ok outs) :
    outs.length = rs.length ∧
    ∃ referrer domain page timeout, ∀ (i : Nat) (r : JSVal), rs[i]? = some r →
      ∃ params pageId adUnitId banner bidId,
        r.get "params" = .ok params ∧ params.get "pageId" = .ok pageId ∧
        params.get "adUnitId" = .ok adUnitId ∧ mapBanner r = .ok banner ∧
        r.get "bidId" = .ok bidId ∧
        outs[i]? = some
          (outboundOf referrer domain page timeout c r pageId adUnitId banner bidId) := by
  obtain ⟨referrer, domain, page, timeout, hm⟩ := buildRequests_ok rs outs c h
  obtain ⟨hl, hi⟩ := arrayMap_getElem _ _ _ hm
  refine ⟨hl, referrer, domain, page, timeout, ?_⟩
  intro i r hr
  obtain ⟨out, hout, hb⟩ := hi i r hr
  obtain ⟨params, pageId, adUnitId, banner, bidId, h1, h2, h3, h4, h5, rfl⟩ :=
    buildRequest_ok _ _ _ _ _ _ _ hb
  exact ⟨params, pageId, adUnitId, banner, bidId, h1, h2, h3, h4, h5, hout⟩

/-- The result of `isBidRequestValid` in terms of the three truthiness tests. -/
theorem isBidRequestValid_eq (bid params : JSVal) (hp : bid.get "params" = .ok params) :
    isBidRequestValid bid = .ok
      (if !params.truthy then ⟨false, [[BIDDER_CODE, "params is required."]]⟩
       else if !(params.field "adUnitId").truthy then
         ⟨false, [[BIDDER_CODE, "adUnitId is required."]]⟩
       else if !(params.field "pageId").truthy then
         ⟨false, [[BIDDER_CODE, "pageId is required."]]⟩
       else ⟨true, []⟩) := by
  unfold isBidRequestValid
  simp only [hp, ok_bind]
  cases htp : params.truthy with
  | false => rfl
  | true =>
    simp only [get_of_truthy _ _ htp, ok_bind]
    cases hta : (params.field "adUnitId").truthy with
    | false => rfl
    | true =>
      cases htg : (params.field "pageId").truthy with
      | false => rfl
      | true => rfl

/-- A property of a falsy value is never truthy. -/
theorem truthy_of_field_truthy (v : JSVal) (k : String) (h : (v.field k).truthy = true) :
    v.truthy = true := by
  cases v with
  | str s =>
    by_cases hs : s = ""
    · subst hs
      by_cases hk : k = "length"
      · subst hk
        revert h
        decide
      · simp [JSVal.field, JSVal.get, hk, JSVal.truthy] at h
    · simp [JSVal.truthy, hs]
  | bool b => simp [JSVal.field, JSVal.get, JSVal.truthy] at h
  | num lit => simp [JSVal.field, JSVal.get, JSVal.truthy] at h
  | undefined => simp [JSVal.field, JSVal.get, JSVal.truthy] at h
  | null => simp [JSVal.field, JSVal.get, JSVal.truthy] at h
  | arr xs => rfl
  | obj fs => rfl

theorem queryParams_applies (pageId adUnitId c : JSVal)
    (h : (deepAccess c ["gdprConsent", "gdprApplies"]).truthy = true) :
    queryParams pageId adUnitId c =
      [("pageId", pageId), ("adUnitId", adUnitId), ("gdpr", num "1"),
       ("tcf-consent", deepAccess c ["gdprConsent", "consentString"])] := by
  unfold queryParams
  simp only [h, if_true]
  rfl

theorem queryParams_not_applies (pageId adUnitId c : JSVal)
    (h : (deepAccess c ["gdprConsent", "gdprApplies"]).truthy = false) :
    queryParams pageId adUnitId c = [("pageId", pageId), ("adUnitId", adUnitId)] := by
  unfold queryParams
  simp [h]

theorem url_applies (p a s : String) :
    BIDDER_URL ++ ("?" ++ ("pageId" ++ "=" ++ p ++ "&" ++
        ("adUnitId" ++ "=" ++ a ++ "&" ++ ("gdpr" ++ "=" ++ "1" ++ "&" ++
          ("tcf-consent" ++ "=" ++ s))))) =
      "https://ads.wortal.ai/api/v1/prebid/bid/" ++ "?pageId=" ++ p ++ "&adUnitId=" ++ a ++
        ("&gdpr=1&tcf-consent=" ++ s) := by
  apply String.ext
  simp [BIDDER_URL]

theorem url_not_applies (p a : String) :
    BIDDER_URL ++ ("?" ++ ("pageId" ++ "=" ++ p ++ "&" ++ ("adUnitId" ++ "=" ++ a))) =
      "https://ads.wortal.ai/api/v1/prebid/bid/" ++ "?pageId=" ++ p ++ "&adUnitId=" ++ a ++
        "" := by
  apply String.ext
  simp [BIDDER_URL]

theorem deepAccess_absent (c : JSVal) (k : String) (ks : List String)
    (h : c.get k = .ok undefined) : deepAccess c (k :: ks) = undefined := by
  rw [deepAccess, get_ok_field c _ k h]
  simp [deepAccess_undefined]

theorem get_of_not_nullish (v : JSVal) (k : String) (h : v.isNullish = false) :
    v.get k = .ok (v.field k) := by
  cases v <;> simp_all [JSVal.get, JSVal.field, JSVal.isNullish] <;> split <;> rfl

theorem not_nullish_of_truthy (v : JSVal) (h : v.truthy = true) : v.isNullish = false := by
  cases v <;> simp_all [JSVal.truthy, JSVal.isNullish]

/-- The value of `advertiserDomains` when `adomain` is a list: the list itself
when it is non-empty, and a fresh empty list, equal to it, when it is empty. -/
theorem advertiserDomains_arr (b : JSVal) (xs : List JSVal)
    (ha : b.get "adomain" = .ok (arr xs)) :
    advertiserDomains b = .ok (arr xs) := by
  unfold advertiserDomains
  simp only [ha, ok_bind]
  cases xs with
  | nil => rfl
  | cons x xs =>
    have hl : lengthPositive (arr (x :: xs)) = .ok true := by simp [lengthPositive]
    simp only [JSVal.truthy, if_true, hl, ok_bind]

theorem advertiserDomains_falsy (b adomain : JSVal)
    (ha : b.get "adomain" = .ok adomain) (hf : adomain.truthy = false) :
    advertiserDomains b = .ok (arr []) := by
  unfold advertiserDomains
  simp only [ha, ok_bind, hf]
  rfl

theorem refererFields_eq (c : JSVal) : refererFields c = .ok (refererValues c) := by
  unfold refererFields refererValues
  cases hc : c.truthy with
  | false =>
    simp only [Bool.false_eq_true, if_false, pure, Except.pure, ok_bind, hc, Bool.false_and]
  | true =>
    simp only [if_true, get_of_truthy c _ hc, ok_bind, Bool.true_and]
    cases hi : (c.field "refererInfo").truthy with
    | false => simp only [Bool.false_eq_true, if_false, pure, Except.pure]
    | true => simp only [if_true, get_of_truthy _ _ hi, ok_bind, pure, Except.pure]

theorem buildRequests_eq (rs : List JSVal) (c : JSVal) :
    buildRequests rs c =
      arrayMap (buildRequest (refererValues c).1 (refererValues c).2.1 (refererValues c).2.2
        (timeoutValue c) c) rs := by
  unfold buildRequests timeoutValue
  rw [refererFields_eq, ok_bind]
  cases hc : c.truthy with
  | false => simp only [Bool.false_eq_true, if_false, pure, Except.pure, ok_bind]
  | true => simp only [if_true, get_of_truthy c _ hc, ok_bind]

/-- Every outbound request of a successful `buildRequests`, with the values the
context contributes. -/
theorem buildRequests_getElem_values (rs outs : List JSVal) (c : JSVal)
    (h : buildRequests rs c = .ok outs) :
    outs.length = rs.length ∧
    ∀ (i : Nat) (r : JSVal), rs[i]? = some r →
      ∃ params pageId adUnitId banner bidId,
        r.get "params" = .ok params ∧ params.get "pageId" = .ok pageId ∧
        params.get "adUnitId" = .ok adUnitId ∧ mapBanner r = .ok banner ∧
        r.get "bidId" = .ok bidId ∧
        outs[i]? = some
          (outboundOf (refererValues c).1 (refererValues c).2.1 (refererValues c).2.2
            (timeoutValue c) c r pageId adUnitId banner bidId) := by
  rw [buildRequests_eq] at h
  obtain ⟨hl, hi⟩ := arrayMap_getElem _ _ _ h
  refine ⟨hl, ?_⟩
  intro i r hr
  obtain ⟨out, hout, hb⟩ := hi i r hr
  obtain ⟨params, pageId, adUnitId, banner, bidId, h1, h2, h3, h4, h5, rfl⟩ :=
    buildRequest_ok _ _ _ _ _ _ _ hb
  exact ⟨params, pageId, adUnitId, banner, bidId, h1, h2, h3, h4, h5, hout⟩

theorem refererValues_absent (c : JSVal)
    (h : c.truthy = false ∨ (c.field "refererInfo").truthy = false) :
    refererValues c = (str "", str "", str "") := by
  unfold refererValues
  rcases h with h | h <;> simp [h]

theorem refererValues_present (c : JSVal) (hc : c.truthy = true)
    (hi : (c.field "refererInfo").truthy = true) :
    refererValues c = ((c.field "refererInfo").field "ref",
      (c.field "refererInfo").field "domain", (c.field "refererInfo").field "page") := by
  unfold refererValues
  simp [hc, hi]

theorem not_nullish_of_get (v x : JSVal) (k : String) (h : v.get k = .ok x) :
    v.isNullish = false := by
  cases v <;> simp_all [JSVal.get, JSVal.isNullish]

theorem getIndex_of_not_nullish (v : JSVal) (n : Nat) (h : v.isNullish = false) :
    ∃ x, v.getIndex n = .ok x := by
  cases v <;> simp_all [JSVal.getIndex, JSVal.isNullish]

theorem sizeFormat_of_not_nullish (size : JSVal) (h : size.isNullish = false) :
    ∃ w h, sizeFormat size = .ok (obj [("w", w), ("h", h)]) := by
  obtain ⟨w, hw⟩ := getIndex_of_not_nullish size 0 h
  obtain ⟨h', hh⟩ := getIndex_of_not_nullish size 1 h
  exact ⟨w, h', by simp only [sizeFormat, hw, hh, ok_bind]; rfl⟩

theorem sizeFormat_of_nullish (size : JSVal) (h : size.isNullish = true) :
    ∃ e, sizeFormat size = .error e := by
  cases size <;> simp_all [JSVal.isNullish] <;> exact ⟨_, rfl⟩

theorem arrayMap_cons_of_ok (f : JSVal → Except String JSVal) (x y : JSVal)
    (xs ys : List JSVal) (hx : f x = .ok y) (hxs : arrayMap f xs = .ok ys) :
    arrayMap f (x :: xs) = .ok (y :: ys) := by
  rw [arrayMap]
  simp only [hx, hxs]

theorem arrayMap_append_ok (f : JSVal → Except String JSVal) (xs ys a b : List JSVal)
    (ha : arrayMap f xs = .ok a) (hb : arrayMap f ys = .ok b) :
    arrayMap f (xs ++ ys) = .ok (a ++ b) := by
  induction xs generalizing a with
  | nil =>
    simp only [arrayMap] at ha
    cases ha
    simpa using hb
  | cons x xs ih =>
    obtain ⟨y, a', hy, ha', rfl⟩ := arrayMap_cons_ok _ _ _ _ ha
    rw [List.cons_append, List.cons_append]
    exact arrayMap_cons_of_ok f x y _ _ hy (ih a' ha')

theorem arrayMap_append_split (f : JSVal → Except String JSVal) (xs ys o : List JSVal)
    (h : arrayMap f (xs ++ ys) = .ok o) :
    ∃ a b, arrayMap f xs = .ok a ∧ arrayMap f ys = .ok b ∧ o = a ++ b := by
  induction xs generalizing o with
  | nil => exact ⟨[], o, rfl, by simpa using h, rfl⟩
  | cons x xs ih =>
    rw [List.cons_append] at h
    obtain ⟨y, o', hy, ho', rfl⟩ := arrayMap_cons_ok _ _ _ _ h
    obtain ⟨a, b, ha, hb, rfl⟩ := ih o' ho'
    exact ⟨y :: a, b, arrayMap_cons_of_ok f x y _ _ hy ha, hb, rfl⟩

theorem arrayMap_error_iff (f : JSVal → Except String JSVal) (xs : List JSVal) :
    (∃ e, arrayMap f xs = .error e) ↔ ∃ x ∈ xs, ∃ e, f x = .error e := by
  induction xs with
  | nil => simp [arrayMap]
  | cons x xs ih =>
    simp only [arrayMap, List.mem_cons, exists_eq_or_imp]
    cases hx : f x with
    | error e => simp
    | ok y =>
      cases hxs : arrayMap f xs with
      | error e =>
        have := ih.1 ⟨e, hxs⟩
        simp [this]
      | ok ys =>
        have hno : ¬ ∃ x ∈ xs, ∃ e, f x = .error e := fun h => by
          obtain ⟨e, he⟩ := ih.2 h
          rw [hxs] at he
          cases he
        simp [hno]

theorem arrayMap_singleton (f : JSVal → Except String JSVal) (x y : JSVal)
    (h : f x = .ok y) : arrayMap f [x] = .ok [y] := by
  simp only [arrayMap, h]

theorem mapBanner_no_banner (r : JSVal) (h : declaresBanner r = false) :
    mapBanner r = .ok undefined := by
  unfold declaresBanner at h
  unfold mapBanner
  simp only [h, Bool.false_eq_true, if_false]
  rfl

/-- With banner support declared, `mapBanner` maps `sizeFormat` over the
effective size list and destructures the first result. -/
theorem mapBanner_of_banner (r : JSVal) (hb : declaresBanner r = true) :
    mapBanner r =
      (callMap (effectiveSizes r) sizeFormat >>= fun format =>
        (nth format 0).get "w" >>= fun w =>
        (nth format 0).get "h" >>= fun h =>
        pure (obj [("w", w), ("h", h)])) := by
  unfold declaresBanner at hb
  obtain ⟨hr, h1⟩ := truthy_of_deepAccess _ _ _ hb
  obtain ⟨hm, h2⟩ := truthy_of_deepAccess _ _ _ h1
  simp only [deepAccess] at h2
  have hs : (if (r.field "sizes").truthy = true then (pure (r.field "sizes") : Except String JSVal)
      else do
        let mediaTypes ← r.get "mediaTypes"
        let banner ← mediaTypes.get "banner"
        banner.get "sizes") = .ok (effectiveSizes r) := by
    unfold effectiveSizes
    by_cases ho : (r.field "sizes").truthy = true
    · simp only [ho, if_true]
      rfl
    · simp only [ho, get_of_truthy _ _ hr, get_of_truthy _ _ hm, get_of_truthy _ _ h2, ok_bind]
      rfl
  unfold mapBanner
  simp only [hb, if_true, get_of_truthy r "sizes" hr, ok_bind]
  rw [hs, ok_bind]
  rfl

theorem mapBanner_error_of_empty (r : JSVal) (hb : declaresBanner r = true)
    (he : sizeListEmptyOrMissing r = true) : ∃ e, mapBanner r = .error e := by
  rw [mapBanner_of_banner r hb]
  unfold sizeListEmptyOrMissing at he
  cases hs : effectiveSizes r with
  | undefined => exact ⟨_, rfl⟩
  | null => exact ⟨_, rfl⟩
  | arr xs =>
    cases xs with
    | nil => exact ⟨_, rfl⟩
    | cons x xs => simp [hs] at he
  | bool b => simp [hs] at he
  | num n => simp [hs] at he
  | str s => simp [hs] at he
  | obj fs => simp [hs] at he

theorem arrayMap_sizeFormat_total (xs : List JSVal)
    (h : xs.all (fun size => !size.isNullish) = true) :
    ∃ ys, arrayMap sizeFormat xs = .ok ys := by
  induction xs with
  | nil => exact ⟨[], rfl⟩
  | cons x xs ih =>
    simp only [List.all_cons, Bool.and_eq_true, Bool.not_eq_true'] at h
    obtain ⟨w, h', hx⟩ := sizeFormat_of_not_nullish x h.1
    obtain ⟨ys, hys⟩ := ih h.2
    exact ⟨_, arrayMap_cons_of_ok sizeFormat x _ xs ys hx hys⟩

theorem mapBanner_ok_of_typed (r x : JSVal) (xs : List JSVal)
    (hb : declaresBanner r = true) (hs : effectiveSizes r = arr (x :: xs))
    (ht : (x :: xs).all (fun size => !size.isNullish) = true) :
    ∃ b, mapBanner r = .ok b := by
  rw [mapBanner_of_banner r hb, hs, callMap_arr]
  obtain ⟨ys, hys⟩ := arrayMap_sizeFormat_total (x :: xs) ht
  obtain ⟨y, ys', hy, -, rfl⟩ := arrayMap_cons_ok _ _ _ _ hys
  simp only [List.all_cons, Bool.and_eq_true, Bool.not_eq_true'] at ht
  obtain ⟨w, h', hx⟩ := sizeFormat_of_not_nullish x ht.1
  rw [hx] at hy
  cases hy
  rw [hys, ok_bind]
  exact ⟨_, rfl⟩

/-- A bid request that carries `params` yields an outbound request as soon as
`mapBanner` returns. -/
theorem buildRequest_total (referrer domain page timeout c r params banner : JSVal)
    (hp : r.get "params" = .ok params) (hn : params.isNullish = false)
    (hb : mapBanner r = .ok banner) :
    buildRequest referrer domain page timeout c r =
      .ok (outboundOf referrer domain page timeout c r (params.field "pageId")
        (params.field "adUnitId") banner (r.field "bidId")) := by
  unfold buildRequest
  simp only [hp, ok_bind, get_of_not_nullish params _ hn, hb,
    get_of_not_nullish r "bidId" (not_nullish_of_get r _ _ hp)]
  rfl

theorem buildRequest_error_iff (referrer domain page timeout c r : JSVal)
    (hp : carriesParams r = true) :
    (∃ e, buildRequest referrer domain page timeout c r = .error e) ↔
      ∃ e, mapBanner r = .error e := by
  unfold carriesParams at hp
  cases hpar : r.get "params" with
  | error e => simp [hpar] at hp
  | ok params =>
    simp only [hpar, Bool.not_eq_true'] at hp
    cases hm : mapBanner r with
    | ok banner =>
      rw [buildRequest_total referrer domain page timeout c r params banner hpar hp hm]
      simp
    | error e =>
      constructor
      · intro _
        exact ⟨e, rfl⟩
      · intro _
        refine ⟨e, ?_⟩
        unfold buildRequest
        simp only [hpar, ok_bind, get_of_not_nullish params _ hp, hm]
        rfl

theorem mapBanner_error_iff (r : JSVal)
    (htyped : declaresBanner r = true → sizeListTyped r = true) :
    (∃ e, mapBanner r = .error e) ↔
      declaresBanner r = true ∧ sizeListEmptyOrMissing r = true := by
  constructor
  · rintro ⟨e, he⟩
    cases hb : declaresBanner r with
    | false =>
      rw [mapBanner_no_banner r hb] at he
      cases he
    | true =>
      refine ⟨rfl, ?_⟩
      have ht := htyped hb
      unfold sizeListTyped at ht
      unfold sizeListEmptyOrMissing
      cases hs : effectiveSizes r with
      | undefined => rfl
      | null => rfl
      | arr xs =>
        cases xs with
        | nil => rfl
        | cons x xs =>
          rw [hs] at ht
          obtain ⟨b, hok⟩ := mapBanner_ok_of_typed r x xs hb hs ht
          rw [hok] at he
          cases he
      | bool b => simp [hs] at ht
      | num n => simp [hs] at ht
      | str s => simp [hs] at ht
      | obj fs => simp [hs] at ht
  · rintro ⟨hb, he⟩
    exact mapBanner_error_of_empty r hb he

theorem effectiveSizes_own (r : JSVal) (xs : List JSVal) (h : r.get "sizes" = .ok (arr xs)) :
    effectiveSizes r = arr xs := by
  unfold effectiveSizes
  rw [get_ok_field r _ _ h]
  rfl

theorem interpretResponse_congr (resp req1 req2 br1 br2 id : JSVal)
    (hbr1 : req1.get "bidRequest" = .ok br1) (hid1 : br1.get "bidId" = .ok id)
    (hbr2 : req2.get "bidRequest" = .ok br2) (hid2 : br2.get "bidId" = .ok id) :
    interpretResponse resp req1 = interpretResponse resp req2 := by
  cases hbody : resp.get "body" with
  | error e => simp [interpretResponse, hbr1, hbr2, hbody, bind, Except.bind]
  | ok body =>
    cases hbid : body.get "bid" with
    | error e => simp [interpretResponse, hbr1, hbr2, hbody, hbid, bind, Except.bind]
    | ok bid =>
      cases ht : bid.truthy with
      | false =>
        rw [interpretResponse_no_bid resp req1 body bid br1 hbody hbid ht hbr1,
          interpretResponse_no_bid resp req2 body bid br2 hbody hbid ht hbr2]
      | true =>
        obtain ⟨adv1, ha1, h1⟩ :=
          interpretResponse_bid resp req1 body bid br1 id hbody hbid ht hbr1 hid1
        obtain ⟨adv2, ha2, h2⟩ :=
          interpretResponse_bid resp req2 body bid br2 id hbody hbid ht hbr2 hid2
        rw [ha1] at ha2
        cases ha2
        rw [h1, h2]

theorem all_not_nullish_of_any (xs : List JSVal)
    (h : xs.any (fun size => size.isNullish) = false) :
    xs.all (fun size => !size.isNullish) = true := by
  induction xs with
  | nil => rfl
  | cons x xs ih =>
    simp only [List.any_cons, Bool.or_eq_false_iff] at h
    simp only [List.all_cons, Bool.and_eq_true, Bool.not_eq_true']
    exact ⟨h.1, ih h.2⟩

theorem arrayMap_sizeFormat_error (xs : List JSVal)
    (h : xs.any (fun size => size.isNullish) = true) :
    ∃ e, arrayMap sizeFormat xs = .error e := by
  rw [arrayMap_error_iff]
  simp only [List.any_eq_true] at h
  obtain ⟨x, hx, hn⟩ := h
  exact ⟨x, hx, sizeFormat_of_nullish x hn⟩

theorem error_bind {α β : Type} (e : String) (f : α → Except String β) :
    ((Except.error e : Except String α) >>= f) = .error e := rfl

/-- With banner support declared, `mapBanner` raises exactly on an unusable
size list. -/
theorem mapBanner_error_iff_unusable (r : JSVal) :
    (∃ e, mapBanner r = .error e) ↔
      declaresBanner r = true ∧ sizeListUnusable r = true := by
  constructor
  · rintro ⟨e, he⟩
    cases hb : declaresBanner r with
    | false =>
      rw [mapBanner_no_banner r hb] at he
      cases he
    | true =>
      refine ⟨rfl, ?_⟩
      cases hu : sizeListUnusable r with
      | true => rfl
      | false =>
        unfold sizeListUnusable at hu
        cases hs : effectiveSizes r with
        | arr xs =>
          rw [hs] at hu
          simp only [Bool.or_eq_false_iff] at hu
          cases xs with
          | nil => simp at hu
          | cons x xs =>
            obtain ⟨b, hok⟩ :=
              mapBanner_ok_of_typed r x xs hb hs (all_not_nullish_of_any _ hu.2)
            rw [hok] at he
            cases he
        | undefined => simp [hs] at hu
        | null => simp [hs] at hu
        | bool b => simp [hs] at hu
        | num n => simp [hs] at hu
        | str t => simp [hs] at hu
        | obj fs => simp [hs] at hu
  · rintro ⟨hb, hu⟩
    rw [mapBanner_of_banner r hb]
    unfold sizeListUnusable at hu
    cases hs : effectiveSizes r with
    | arr xs =>
      rw [hs] at hu
      cases xs with
      | nil => exact ⟨_, rfl⟩
      | cons x xs =>
        simp only [List.isEmpty_cons, Bool.false_or] at hu
        obtain ⟨e, he⟩ := arrayMap_sizeFormat_error (x :: xs) hu
        rw [callMap_arr, he, error_bind]
        exact ⟨e, rfl⟩
    | undefined => exact ⟨_, rfl⟩
    | null => exact ⟨_, rfl⟩
    | bool b => exact ⟨_, rfl⟩
    | num n => exact ⟨_, rfl⟩
    | str t => exact ⟨_, rfl⟩
    | obj fs => exact ⟨_, rfl⟩

/-- On a size list of the data model's type, unusable means empty or missing. -/
theorem sizeListUnusable_of_typed (r : JSVal) (ht : sizeListTyped r = true) :
    sizeListUnusable r = sizeListEmptyOrMissing r := by
  unfold sizeListTyped at ht
  unfold sizeListUnusable sizeListEmptyOrMissing
  cases hs : effectiveSizes r with
  | arr xs =>
    rw [hs] at ht
    cases xs with
    | nil => rfl
    | cons x xs =>
      simp only at ht
      have hany : (x :: xs).any (fun size => size.isNullish) = false := by
        cases hh : (x :: xs).any (fun size => size.isNullish) with
        | false => rfl
        | true =>
          simp only [List.any_eq_true] at hh
          obtain ⟨y, hy, hn⟩ := hh
          have := (List.all_eq_true.1 ht) y hy
          simp [hn] at this
      simp only [List.isEmpty_cons, Bool.false_or, hany]
  | undefined => rfl
  | null => rfl
  | bool b => simp [hs] at ht
  | num n => simp [hs] at ht
  | str t => simp [hs] at ht
  | obj fs => simp [hs] at ht

theorem sizeListUnusable_of_emptyOrMissing (r : JSVal)
    (h : sizeListEmptyOrMissing r = true) : sizeListUnusable r = true := by
  unfold sizeListEmptyOrMissing at h
  unfold sizeListUnusable
  cases hs : effectiveSizes r with
  | arr xs =>
    cases xs with
    | nil => rfl
    | cons x xs => simp [hs] at h
  | undefined => rfl
  | null => rfl
  | bool b => rfl
  | num n => rfl
  | str t => rfl
  | obj fs => rfl

/-! ## The claims -/

/-- C1: correlation round trip. Whenever `buildRequests rs c` succeeds and the
server response's body carries a truthy `bid`, interpreting that response
against the `i`-th outbound request yields exactly one bid, whose `requestId`
is the `bidId` of `rs[i]`. This holds for every list `rs`, so in particular for
a single request accepted by `isBidRequestValid` (`rs = [r]`, `i = 0`). -/
theorem requestId_round_trip (rs outs : List JSVal) (c resp body bid : JSVal)
    (hbuild : buildRequests rs c = .ok outs)
    (hbody : resp.get "body" = .ok body) (hbid : body.get "bid" = .ok bid)
    (ht : bid.truthy = true) (i : Nat) (r : JSVal) (hr : rs[i]? = some r) :
    ∃ out prBid id, outs[i]? = some out ∧
      interpretResponse resp out = .ok [prBid] ∧
      r.get "bidId" = .ok id ∧ prBid.get "requestId" = .ok id := by
  obtain ⟨-, referrer, domain, page, timeout, hall⟩ := buildRequests_getElem rs outs c hbuild
  obtain ⟨params, pageId, adUnitId, banner, bidId, -, -, -, -, hid, hout⟩ := hall i r hr
  obtain ⟨adv, -, hres⟩ := interpretResponse_bid resp _ body bid r bidId hbody hbid ht
    (show (outboundOf referrer domain page timeout c r pageId adUnitId banner bidId).get
      "bidRequest" = .ok r from rfl) hid
  exact ⟨_, _, bidId, hout, hres, hid, rfl⟩

theorem requestId_round_trip_witness :
    (∃ w, isBidRequestValid sampleBidRequest = .ok ⟨true, w⟩) ∧
    ∃ out prBid id, [sampleOutbound][0]? = some out ∧
      interpretResponse sampleResponse out = .ok [prBid] ∧
      sampleBidRequest.get "bidId" = .ok id ∧ prBid.get "requestId" = .ok id :=
  ⟨⟨[], rfl⟩, requestId_round_trip [sampleBidRequest] [sampleOutbound] sampleContext sampleResponse
    (obj [("bid", sampleBid)]) sampleBid rfl rfl rfl rfl 0 sampleBidRequest rfl⟩

/-- C2: a bid request that lacks `params`, or whose `params` lack `adUnitId` or
lack `pageId`, is rejected: `isBidRequestValid` returns `false` (it returns, it
does not raise) and logs one warning, whatever else the request holds. -/
theorem isBidRequestValid_missing (bid : JSVal)
    (h : bid.get "params" = .ok undefined ∨
      ∃ params, bid.get "params" = .ok params ∧
        (params.get "adUnitId" = .ok undefined ∨ params.get "pageId" = .ok undefined)) :
    ∃ msg, isBidRequestValid bid = .ok ⟨false, [[BIDDER_CODE, msg]]⟩ := by
  rcases h with h | ⟨params, hp, h⟩
  · exact ⟨_, by rw [isBidRequestValid_eq bid _ h]; rfl⟩
  · rw [isBidRequestValid_eq bid _ hp]
    cases htp : params.truthy with
    | false => exact ⟨_, rfl⟩
    | true =>
      have hfield : params.field "adUnitId" = undefined ∨ params.field "pageId" = undefined :=
        h.imp (get_ok_field _ _ _) (get_ok_field _ _ _)
      cases hta : (params.field "adUnitId").truthy with
      | false => exact ⟨_, rfl⟩
      | true =>
        rcases hfield with hf | hf
        · rw [hf] at hta
          cases hta
        · rw [hf]
          exact ⟨_, rfl⟩

theorem isBidRequestValid_missing_witness :
    ∃ msg, isBidRequestValid
        (obj [("bidId", str "b3"), ("params", obj [("adUnitId", str "unit-1")])]) =
      .ok ⟨false, [[BIDDER_CODE, msg]]⟩ :=
  isBidRequestValid_missing _ (Or.inr ⟨obj [("adUnitId", str "unit-1")], rfl, Or.inr rfl⟩)

/-- C3 (as stated, refuted): `emptyAdUnitRequest` has both `adUnitId` and
`pageId` present in its params, the former being the empty string, and
`isBidRequestValid` rejects it with the warning that `adUnitId` is required. -/
theorem isBidRequestValid_rejects_empty_adUnitId :
    (∃ fields, emptyAdUnitRequest.get "params" = .ok (obj fields) ∧
      lookup "adUnitId" fields = some (str "") ∧
      lookup "pageId" fields = some (str "page-1")) ∧
    isBidRequestValid emptyAdUnitRequest =
      .ok ⟨false, [[BIDDER_CODE, "adUnitId is required."]]⟩ :=
  ⟨⟨_, rfl, rfl, rfl⟩, rfl⟩

/-- C3 (amended): a bid request whose params have a truthy `adUnitId` and a
truthy `pageId` is accepted: `isBidRequestValid` returns `true` and logs
nothing, whatever the types of the two values and whatever else the request
holds. A bid request whose params have a falsy `adUnitId` or a falsy `pageId`
(absent, or present as the empty string, zero, `NaN`, `null` or `false`) is
rejected: `isBidRequestValid` returns `false` and logs one warning. -/
theorem isBidRequestValid_truthy (bid params : JSVal)
    (hp : bid.get "params" = .ok params) :
    ((params.field "adUnitId").truthy = true → (params.field "pageId").truthy = true →
      isBidRequestValid bid = .ok ⟨true, []⟩) ∧
    ((params.field "adUnitId").truthy = false ∨ (params.field "pageId").truthy = false →
      ∃ msg, isBidRequestValid bid = .ok ⟨false, [[BIDDER_CODE, msg]]⟩) := by
  rw [isBidRequestValid_eq bid params hp]
  constructor
  · intro ha hg
    rw [truthy_of_field_truthy params _ ha, ha, hg]
    rfl
  · intro h
    cases htp : params.truthy with
    | false => exact ⟨_, rfl⟩
    | true =>
      cases hta : (params.field "adUnitId").truthy with
      | false => exact ⟨_, rfl⟩
      | true =>
        rcases h with h | h
        · rw [hta] at h
          cases h
        · rw [h]
          exact ⟨_, rfl⟩

theorem isBidRequestValid_truthy_witness :
    isBidRequestValid sampleBidRequest = .ok ⟨true, []⟩ ∧
    ∃ msg, isBidRequestValid zeroPageIdRequest = .ok ⟨false, [[BIDDER_CODE, msg]]⟩ :=
  ⟨(isBidRequestValid_truthy sampleBidRequest
      (obj [("adUnitId", str "unit-1"), ("pageId", str "page-1")]) rfl).1 rfl rfl,
   (isBidRequestValid_truthy zeroPageIdRequest
      (obj [("adUnitId", str "unit-1"), ("pageId", num "0")]) rfl).2 (Or.inr rfl)⟩

/-- C4: when `buildRequests rs c` succeeds it yields exactly one outbound
request per bid request, in input order: the result is as long as `rs`, and
the `i`-th outbound request has `rs[i]` as its `bidRequest` and the `bidId` of
`rs[i]` as its `data.id`. -/
theorem buildRequests_one_per_request (rs outs : List JSVal) (c : JSVal)
    (hbuild : buildRequests rs c = .ok outs) :
    outs.length = rs.length ∧
    ∀ (i : Nat) (r : JSVal), rs[i]? = some r →
      ∃ out data id, outs[i]? = some out ∧ out.get "bidRequest" = .ok r ∧
        out.get "data" = .ok data ∧ r.get "bidId" = .ok id ∧ data.get "id" = .ok id := by
  obtain ⟨hl, referrer, domain, page, timeout, hall⟩ := buildRequests_getElem rs outs c hbuild
  refine ⟨hl, ?_⟩
  intro i r hr
  obtain ⟨params, pageId, adUnitId, banner, bidId, -, -, -, -, hid, hout⟩ := hall i r hr
  exact ⟨_, _, bidId, hout, rfl, rfl, hid, rfl⟩

theorem buildRequests_one_per_request_witness :
    [sampleOutbound].length = [sampleBidRequest].length ∧
    ∀ (i : Nat) (r : JSVal), [sampleBidRequest][i]? = some r →
      ∃ out data id, [sampleOutbound][i]? = some out ∧ out.get "bidRequest" = .ok r ∧
        out.get "data" = .ok data ∧ r.get "bidId" = .ok id ∧ data.get "id" = .ok id :=
  buildRequests_one_per_request [sampleBidRequest] [sampleOutbound] sampleContext rfl

/-- C5: when `buildRequests rs c` succeeds and `rs[i]` declares banner support
(`mediaTypes.banner` is truthy), the body built for it has an `imp` of exactly
one element, whose `id` is `params.adUnitId` and whose `banner` is `{w, h}` with
`[w, h]` the first pair of the size list, the list being the request's own
`sizes` if present and `mediaTypes.banner.sizes` otherwise; the later pairs
`rest` do not occur in the banner. -/
theorem imp_banner_first_size (rs outs : List JSVal) (c : JSVal)
    (hbuild : buildRequests rs c = .ok outs) (i : Nat) (r : JSVal)
    (hr : rs[i]? = some r)
    (hb : (deepAccess r ["mediaTypes", "banner"]).truthy = true) :
    ∃ out data params adUnitId first rest w h,
      outs[i]? = some out ∧ out.get "data" = .ok data ∧
      r.get "params" = .ok params ∧ params.get "adUnitId" = .ok adUnitId ∧
      effectiveSizes r = arr (first :: rest) ∧
      first.getIndex 0 = .ok w ∧ first.getIndex 1 = .ok h ∧
      data.get "imp" =
        .ok (arr [obj [("id", adUnitId), ("banner", obj [("w", w), ("h", h)])]]) := by
  obtain ⟨-, referrer, domain, page, timeout, hall⟩ := buildRequests_getElem rs outs c hbuild
  obtain ⟨params, pageId, adUnitId, banner, bidId, hp, -, hau, hban, -, hout⟩ := hall i r hr
  obtain ⟨first, rest, w, h, hsz, hw, hh, rfl⟩ := mapBanner_banner r banner hb hban
  exact ⟨_, _, params, adUnitId, first, rest, w, h, hout, rfl, hp, hau, hsz, hw, hh, rfl⟩

theorem imp_banner_first_size_witness :
    ∃ out data params adUnitId first rest w h,
      [sampleOutbound][0]? = some out ∧ out.get "data" = .ok data ∧
      sampleBidRequest.get "params" = .ok params ∧ params.get "adUnitId" = .ok adUnitId ∧
      effectiveSizes sampleBidRequest = arr (first :: rest) ∧
      first.getIndex 0 = .ok w ∧ first.getIndex 1 = .ok h ∧
      data.get "imp" =
        .ok (arr [obj [("id", adUnitId), ("banner", obj [("w", w), ("h", h)])]]) :=
  imp_banner_first_size [sampleBidRequest] [sampleOutbound] sampleContext rfl 0
    sampleBidRequest rfl rfl

/-- C6: the query string of every outbound request is `formatQS` of the query
object `queryParams`. When the context's consent signal applies
(`gdprConsent.gdprApplies` is truthy) that object is `pageId`, `adUnitId`,
`gdpr = 1` and `tcf-consent`, the last holding the context's consent string
verbatim, whatever value it is; when the flag is falsy the object is `pageId`
and `adUnitId` alone, with no `gdpr` and no `tcf-consent` key. An absent context
and an absent consent signal both make the flag falsy. -/
theorem consent_query_entries (rs outs : List JSVal) (c : JSVal)
    (hbuild : buildRequests rs c = .ok outs) (i : Nat) (r : JSVal)
    (hr : rs[i]? = some r) :
    ∃ out params pageId adUnitId,
      outs[i]? = some out ∧ r.get "params" = .ok params ∧
      params.get "pageId" = .ok pageId ∧ params.get "adUnitId" = .ok adUnitId ∧
      out.get "url" =
        .ok (str (BIDDER_URL ++ ("?" ++ formatQS (queryParams pageId adUnitId c)))) ∧
      ((deepAccess c ["gdprConsent", "gdprApplies"]).truthy = true →
        queryParams pageId adUnitId c =
          [("pageId", pageId), ("adUnitId", adUnitId), ("gdpr", num "1"),
           ("tcf-consent", deepAccess c ["gdprConsent", "consentString"])]) ∧
      ((deepAccess c ["gdprConsent", "gdprApplies"]).truthy = false →
        queryParams pageId adUnitId c = [("pageId", pageId), ("adUnitId", adUnitId)] ∧
        lookup "gdpr" (queryParams pageId adUnitId c) = none ∧
        lookup "tcf-consent" (queryParams pageId adUnitId c) = none) ∧
      (c = undefined → (deepAccess c ["gdprConsent", "gdprApplies"]).truthy = false) ∧
      (c.get "gdprConsent" = .ok undefined →
        (deepAccess c ["gdprConsent", "gdprApplies"]).truthy = false) := by
  obtain ⟨-, referrer, domain, page, timeout, hall⟩ := buildRequests_getElem rs outs c hbuild
  obtain ⟨params, pageId, adUnitId, banner, bidId, hp, hpg, hau, -, -, hout⟩ := hall i r hr
  refine ⟨_, params, pageId, adUnitId, hout, hp, hpg, hau, rfl,
    queryParams_applies pageId adUnitId c, ?_, ?_, ?_⟩
  · intro h
    rw [queryParams_not_applies pageId adUnitId c h]
    exact ⟨rfl, rfl, rfl⟩
  · intro h
    rw [h, deepAccess_undefined]
    rfl
  · intro h
    rw [deepAccess_absent c _ _ h]
    rfl

theorem consent_query_entries_witness :
    ∃ out params pageId adUnitId,
      [sampleOutbound][0]? = some out ∧ sampleBidRequest.get "params" = .ok params ∧
      params.get "pageId" = .ok pageId ∧ params.get "adUnitId" = .ok adUnitId ∧
      out.get "url" =
        .ok (str (BIDDER_URL ++ ("?" ++ formatQS (queryParams pageId adUnitId sampleContext)))) ∧
      ((deepAccess sampleContext ["gdprConsent", "gdprApplies"]).truthy = true →
        queryParams pageId adUnitId sampleContext =
          [("pageId", pageId), ("adUnitId", adUnitId), ("gdpr", num "1"),
           ("tcf-consent", deepAccess sampleContext ["gdprConsent", "consentString"])]) ∧
      ((deepAccess sampleContext ["gdprConsent", "gdprApplies"]).truthy = false →
        queryParams pageId adUnitId sampleContext =
          [("pageId", pageId), ("adUnitId", adUnitId)] ∧
        lookup "gdpr" (queryParams pageId adUnitId sampleContext) = none ∧
        lookup "tcf-consent" (queryParams pageId adUnitId sampleContext) = none) ∧
      (sampleContext = undefined →
        (deepAccess sampleContext ["gdprConsent", "gdprApplies"]).truthy = false) ∧
      (sampleContext.get "gdprConsent" = .ok undefined →
        (deepAccess sampleContext ["gdprConsent", "gdprApplies"]).truthy = false) :=
  consent_query_entries [sampleBidRequest] [sampleOutbound] sampleContext rfl 0
    sampleBidRequest rfl

/-- C7: the url of every outbound request is the fixed base
`https://ads.wortal.ai/api/v1/prebid/bid/` followed by `?pageId=<p>&adUnitId=<a>`,
`p` and `a` being the renderings of `params.pageId` and `params.adUnitId`, then
by `&gdpr=1&tcf-consent=<consent string>` when consent applies and by nothing
otherwise. -/
theorem outbound_url (rs outs : List JSVal) (c : JSVal)
    (hbuild : buildRequests rs c = .ok outs) (i : Nat) (r : JSVal)
    (hr : rs[i]? = some r) :
    ∃ out params pageId adUnitId,
      outs[i]? = some out ∧ r.get "params" = .ok params ∧
      params.get "pageId" = .ok pageId ∧ params.get "adUnitId" = .ok adUnitId ∧
      out.get "url" = .ok (str
        ("https://ads.wortal.ai/api/v1/prebid/bid/" ++ "?pageId=" ++ toStr pageId ++
          "&adUnitId=" ++ toStr adUnitId ++
          (if (deepAccess c ["gdprConsent", "gdprApplies"]).truthy then
            "&gdpr=1&tcf-consent=" ++ toStr (deepAccess c ["gdprConsent", "consentString"])
           else ""))) := by
  obtain ⟨-, referrer, domain, page, timeout, hall⟩ := buildRequests_getElem rs outs c hbuild
  obtain ⟨params, pageId, adUnitId, banner, bidId, hp, hpg, hau, -, -, hout⟩ := hall i r hr
  refine ⟨_, params, pageId, adUnitId, hout, hp, hpg, hau, ?_⟩
  cases hflag : (deepAccess c ["gdprConsent", "gdprApplies"]).truthy with
  | true =>
    simp only [outboundOf, queryParams_applies pageId adUnitId c hflag, formatQS, if_true]
    rw [show (num "1").toStr = "1" from rfl, url_applies]
    rfl
  | false =>
    simp only [outboundOf, queryParams_not_applies pageId adUnitId c hflag, formatQS,
      Bool.false_eq_true, if_false]
    rw [url_not_applies]
    rfl

theorem outbound_url_witness :
    ∃ out params pageId adUnitId,
      [sampleOutbound][0]? = some out ∧ sampleBidRequest.get "params" = .ok params ∧
      params.get "pageId" = .ok pageId ∧ params.get "adUnitId" = .ok adUnitId ∧
      out.get "url" = .ok (str
        ("https://ads.wortal.ai/api/v1/prebid/bid/" ++ "?pageId=" ++ toStr pageId ++
          "&adUnitId=" ++ toStr adUnitId ++
          (if (deepAccess sampleContext ["gdprConsent", "gdprApplies"]).truthy then
            "&gdpr=1&tcf-consent=" ++
              toStr (deepAccess sampleContext ["gdprConsent", "consentString"])
           else ""))) :=
  outbound_url [sampleBidRequest] [sampleOutbound] sampleContext rfl 0 sampleBidRequest rfl

/-- C8: for a server response whose body has no `bid` field (the field reads
as `undefined`; the same holds for any falsy `bid`) and an originating request
object, `interpretResponse` returns the empty list and raises nothing. In every
case the returned list has at most one element: a list is returned whenever the
response has a body and the request carries its bid request, and no returned
list is longer than one. -/
theorem interpretResponse_without_bid (resp req body bid br : JSVal)
    (hbody : resp.get "body" = .ok body) (hbid : body.get "bid" = .ok bid)
    (ht : bid.truthy = false) (hbr : req.get "bidRequest" = .ok br) :
    interpretResponse resp req = .ok [] ∧
    (∀ (resp' req' body' bid' br' id' : JSVal),
      resp'.get "body" = .ok body' → body'.get "bid" = .ok bid' →
      req'.get "bidRequest" = .ok br' → br'.get "bidId" = .ok id' →
      ∃ xs, interpretResponse resp' req' = .ok xs ∧ xs.length ≤ 1) ∧
    ∀ (resp' req' : JSVal) (xs : List JSVal),
      interpretResponse resp' req' = .ok xs → xs.length ≤ 1 := by
  refine ⟨interpretResponse_no_bid resp req body bid br hbody hbid ht hbr, ?_,
    fun resp' req' xs h => interpretResponse_length resp' req' xs h⟩
  intro resp' req' body' bid' br' id' h1 h2 h3 h4
  cases ht' : bid'.truthy with
  | false =>
    exact ⟨[], interpretResponse_no_bid resp' req' body' bid' br' h1 h2 ht' h3, by simp⟩
  | true =>
    obtain ⟨adv, -, hres⟩ := interpretResponse_bid resp' req' body' bid' br' id' h1 h2 ht' h3 h4
    exact ⟨_, hres, by simp⟩

theorem interpretResponse_without_bid_witness :
    interpretResponse (obj [("body", obj [])]) sampleOutbound = .ok [] ∧
    (∀ (resp' req' body' bid' br' id' : JSVal),
      resp'.get "body" = .ok body' → body'.get "bid" = .ok bid' →
      req'.get "bidRequest" = .ok br' → br'.get "bidId" = .ok id' →
      ∃ xs, interpretResponse resp' req' = .ok xs ∧ xs.length ≤ 1) ∧
    ∀ (resp' req' : JSVal) (xs : List JSVal),
      interpretResponse resp' req' = .ok xs → xs.length ≤ 1 :=
  interpretResponse_without_bid (obj [("body", obj [])]) sampleOutbound (obj []) undefined
    sampleBidRequest rfl rfl rfl rfl

/-- C9: for a server response whose body has a truthy `bid` and an originating
request that carries its bid request, `interpretResponse` returns exactly one
bid, whose `cpm`, `width`, `height`, `creativeId` and `ad` are the response
bid's `cpm`, `width`, `height`, `creative_id` and `ad` unchanged, and whose
`mediaType`, `netRevenue` and `ttl` are `"banner"`, `true` and `180`. -/
theorem interpretResponse_bid_fields (resp req body bid br id : JSVal)
    (hbody : resp.get "body" = .ok body) (hbid : body.get "bid" = .ok bid)
    (ht : bid.truthy = true) (hbr : req.get "bidRequest" = .ok br)
    (hid : br.get "bidId" = .ok id) :
    ∃ prBid, interpretResponse resp req = .ok [prBid] ∧
      prBid.get "cpm" = bid.get "cpm" ∧
      prBid.get "width" = bid.get "width" ∧
      prBid.get "height" = bid.get "height" ∧
      prBid.get "creativeId" = bid.get "creative_id" ∧
      prBid.get "ad" = bid.get "ad" ∧
      prBid.get "mediaType" = .ok (str "banner") ∧
      prBid.get "netRevenue" = .ok (JSVal.bool true) ∧
      prBid.get "ttl" = .ok (num "180") := by
  obtain ⟨adv, -, hres⟩ := interpretResponse_bid resp req body bid br id hbody hbid ht hbr hid
  refine ⟨_, hres, ?_, ?_, ?_, ?_, ?_, rfl, rfl, rfl⟩ <;>
    rw [get_of_truthy bid _ ht] <;> rfl

theorem interpretResponse_bid_fields_witness :
    ∃ prBid, interpretResponse sampleResponse sampleOutbound = .ok [prBid] ∧
      prBid.get "cpm" = sampleBid.get "cpm" ∧
      prBid.get "width" = sampleBid.get "width" ∧
      prBid.get "height" = sampleBid.get "height" ∧
      prBid.get "creativeId" = sampleBid.get "creative_id" ∧
      prBid.get "ad" = sampleBid.get "ad" ∧
      prBid.get "mediaType" = .ok (str "banner") ∧
      prBid.get "netRevenue" = .ok (JSVal.bool true) ∧
      prBid.get "ttl" = .ok (num "180") :=
  interpretResponse_bid_fields sampleResponse sampleOutbound (obj [("bid", sampleBid)])
    sampleBid sampleBidRequest (str "b1") rfl rfl rfl rfl rfl

/-- C10: for a server response with a truthy `bid`, the returned bid's
`currency` is the response bid's `cur` when it states one (a truthy `cur`) and
`"USD"` when `cur` is absent (it reads as `undefined`; likewise for any falsy
`cur`). -/
theorem interpretResponse_currency (resp req body bid br id : JSVal)
    (hbody : resp.get "body" = .ok body) (hbid : body.get "bid" = .ok bid)
    (ht : bid.truthy = true) (hbr : req.get "bidRequest" = .ok br)
    (hid : br.get "bidId" = .ok id) :
    ∃ prBid cur, interpretResponse resp req = .ok [prBid] ∧ bid.get "cur" = .ok cur ∧
      (cur.truthy = true → prBid.get "currency" = .ok cur) ∧
      (cur = undefined → prBid.get "currency" = .ok (str "USD")) ∧
      (cur.truthy = false → prBid.get "currency" = .ok (str "USD")) := by
  obtain ⟨adv, -, hres⟩ := interpretResponse_bid resp req body bid br id hbody hbid ht hbr hid
  have hcur : (prBidOf bid id adv).get "currency" =
      .ok (if (bid.field "cur").truthy then bid.field "cur" else str DEFAULT_CURRENCY) := rfl
  refine ⟨_, bid.field "cur", hres, get_of_truthy bid _ ht, ?_, ?_, ?_⟩
  · intro h
    rw [hcur, h]
    rfl
  · intro h
    rw [hcur, h]
    rfl
  · intro h
    rw [hcur, h]
    rfl

theorem interpretResponse_currency_witness :
    ∃ prBid cur, interpretResponse sampleResponse sampleOutbound = .ok [prBid] ∧
      sampleBid.get "cur" = .ok cur ∧
      (cur.truthy = true → prBid.get "currency" = .ok cur) ∧
      (cur = undefined → prBid.get "currency" = .ok (str "USD")) ∧
      (cur.truthy = false → prBid.get "currency" = .ok (str "USD")) :=
  interpretResponse_currency sampleResponse sampleOutbound (obj [("bid", sampleBid)])
    sampleBid sampleBidRequest (str "b1") rfl rfl rfl rfl rfl

/-- C11: for a server response with a truthy `bid`, the returned bid's
`meta.advertiserDomains` is the response bid's `adomain` when that is a
non-empty list, and the empty list when `adomain` is absent (it reads as
`undefined`) or is the empty list. -/
theorem interpretResponse_advertiserDomains (resp req body bid br id : JSVal)
    (hbody : resp.get "body" = .ok body) (hbid : body.get "bid" = .ok bid)
    (ht : bid.truthy = true) (hbr : req.get "bidRequest" = .ok br)
    (hid : br.get "bidId" = .ok id) :
    ∃ prBid meta, interpretResponse resp req = .ok [prBid] ∧
      prBid.get "meta" = .ok meta ∧
      (∀ x xs, bid.get "adomain" = .ok (arr (x :: xs)) →
        meta.get "advertiserDomains" = .ok (arr (x :: xs))) ∧
      (bid.get "adomain" = .ok undefined → meta.get "advertiserDomains" = .ok (arr [])) ∧
      (bid.get "adomain" = .ok (arr []) → meta.get "advertiserDomains" = .ok (arr [])) := by
  obtain ⟨adv, hadv, hres⟩ := interpretResponse_bid resp req body bid br id hbody hbid ht hbr hid
  refine ⟨_, obj [("advertiserDomains", adv)], hres, rfl, ?_, ?_, ?_⟩
  · intro x xs ha
    rw [advertiserDomains_arr bid _ ha] at hadv
    cases hadv
    rfl
  · intro ha
    rw [advertiserDomains_falsy bid _ ha rfl] at hadv
    cases hadv
    rfl
  · intro ha
    rw [advertiserDomains_arr bid _ ha] at hadv
    cases hadv
    rfl

theorem interpretResponse_advertiserDomains_witness :
    ∃ prBid meta, interpretResponse sampleResponse sampleOutbound = .ok [prBid] ∧
      prBid.get "meta" = .ok meta ∧
      (∀ x xs, sampleBid.get "adomain" = .ok (arr (x :: xs)) →
        meta.get "advertiserDomains" = .ok (arr (x :: xs))) ∧
      (sampleBid.get "adomain" = .ok undefined →
        meta.get "advertiserDomains" = .ok (arr [])) ∧
      (sampleBid.get "adomain" = .ok (arr []) →
        meta.get "advertiserDomains" = .ok (arr [])) :=
  interpretResponse_advertiserDomains sampleResponse sampleOutbound
    (obj [("bid", sampleBid)]) sampleBid sampleBidRequest (str "b1") rfl rfl rfl rfl rfl

/-- C12: in every outbound request of a successful `buildRequests`, the body's
`site` and `tmax` come from the context alone. When the context is absent
(falsy) or has no truthy `refererInfo`, `site.ref`, `site.page` and
`site.domain` are the empty string; when the context is absent `tmax` is
`null`. When the context and its `refererInfo` are present, `site.ref`,
`site.page`, `site.domain` are `refererInfo.ref`, `refererInfo.page`,
`refererInfo.domain`, and `tmax` is the context's `timeout`. The values do not
depend on the position in the batch. -/
theorem site_and_tmax_from_context (rs outs : List JSVal) (c : JSVal)
    (hbuild : buildRequests rs c = .ok outs) :
    outs.length = rs.length ∧
    ∀ (i : Nat) (r : JSVal), rs[i]? = some r →
      ∃ out data site, outs[i]? = some out ∧ out.get "data" = .ok data ∧
        data.get "site" = .ok site ∧
        ((c.truthy = false ∨ (c.field "refererInfo").truthy = false) →
          site.get "ref" = .ok (str "") ∧ site.get "page" = .ok (str "") ∧
          site.get "domain" = .ok (str "")) ∧
        (c.truthy = false → data.get "tmax" = .ok null) ∧
        (∀ info, c.truthy = true → c.get "refererInfo" = .ok info → info.truthy = true →
          site.get "ref" = info.get "ref" ∧ site.get "page" = info.get "page" ∧
          site.get "domain" = info.get "domain") ∧
        (c.truthy = true → data.get "tmax" = c.get "timeout") := by
  obtain ⟨hl, hall⟩ := buildRequests_getElem_values rs outs c hbuild
  refine ⟨hl, ?_⟩
  intro i r hr
  obtain ⟨params, pageId, adUnitId, banner, bidId, -, -, -, -, -, hout⟩ := hall i r hr
  refine ⟨_, _, _, hout, rfl, rfl, ?_, ?_, ?_, ?_⟩
  · intro h
    rw [refererValues_absent c h]
    exact ⟨rfl, rfl, rfl⟩
  · intro h
    simp only [timeoutValue, h]
    rfl
  · intro info hc hinfo hi
    have hf := get_ok_field _ _ _ hinfo
    rw [← hf] at hi
    rw [refererValues_present c hc hi, hf, get_of_truthy info "ref" (hf ▸ hi),
      get_of_truthy info "page" (hf ▸ hi), get_of_truthy info "domain" (hf ▸ hi)]
    exact ⟨rfl, rfl, rfl⟩
  · intro hc
    simp only [timeoutValue, hc, get_of_truthy c _ hc]
    rfl

theorem site_and_tmax_from_context_witness :
    [sampleOutbound].length = [sampleBidRequest].length ∧
    ∀ (i : Nat) (r : JSVal), [sampleBidRequest][i]? = some r →
      ∃ out data site, [sampleOutbound][i]? = some out ∧ out.get "data" = .ok data ∧
        data.get "site" = .ok site ∧
        ((sampleContext.truthy = false ∨
            (sampleContext.field "refererInfo").truthy = false) →
          site.get "ref" = .ok (str "") ∧ site.get "page" = .ok (str "") ∧
          site.get "domain" = .ok (str "")) ∧
        (sampleContext.truthy = false → data.get "tmax" = .ok null) ∧
        (∀ info, sampleContext.truthy = true → sampleContext.get "refererInfo" = .ok info →
          info.truthy = true →
          site.get "ref" = info.get "ref" ∧ site.get "page" = info.get "page" ∧
          site.get "domain" = info.get "domain") ∧
        (sampleContext.truthy = true → data.get "tmax" = sampleContext.get "timeout") :=
  site_and_tmax_from_context [sampleBidRequest] [sampleOutbound] sampleContext rfl

/-- C13: for a server response with a truthy `bid` and an originating request
that carries its bid request, `interpretResponse` raises nothing and returns
exactly one bid even when the response bid lacks its price, dimensions or
creative identifier: each of `cpm`, `width`, `height`, `creativeId` whose
source field is missing is `undefined` in the returned bid. -/
theorem interpretResponse_missing_fields (resp req body bid br id : JSVal)
    (hbody : resp.get "body" = .ok body) (hbid : body.get "bid" = .ok bid)
    (ht : bid.truthy = true) (hbr : req.get "bidRequest" = .ok br)
    (hid : br.get "bidId" = .ok id) :
    ∃ prBid, interpretResponse resp req = .ok [prBid] ∧
      (bid.get "cpm" = .ok undefined → prBid.get "cpm" = .ok undefined) ∧
      (bid.get "width" = .ok undefined → prBid.get "width" = .ok undefined) ∧
      (bid.get "height" = .ok undefined → prBid.get "height" = .ok undefined) ∧
      (bid.get "creative_id" = .ok undefined → prBid.get "creativeId" = .ok undefined) := by
  obtain ⟨adv, -, hres⟩ := interpretResponse_bid resp req body bid br id hbody hbid ht hbr hid
  refine ⟨_, hres, ?_, ?_, ?_, ?_⟩ <;>
  · intro h
    rw [← h, get_of_truthy bid _ ht]
    rfl

theorem interpretResponse_missing_fields_witness :
    ∃ prBid, interpretResponse (obj [("body", obj [("bid", bareBid)])]) sampleOutbound =
        .ok [prBid] ∧
      (bareBid.get "cpm" = .ok undefined → prBid.get "cpm" = .ok undefined) ∧
      (bareBid.get "width" = .ok undefined → prBid.get "width" = .ok undefined) ∧
      (bareBid.get "height" = .ok undefined → prBid.get "height" = .ok undefined) ∧
      (bareBid.get "creative_id" = .ok undefined →
        prBid.get "creativeId" = .ok undefined) :=
  interpretResponse_missing_fields (obj [("body", obj [("bid", bareBid)])]) sampleOutbound
    (obj [("bid", bareBid)]) bareBid sampleBidRequest (str "b1") rfl rfl rfl rfl rfl

/-- C14: every outbound request of a successful `buildRequests` has the method
`POST`, the content type `application/json` and the custom header
`x-openrtb-version` equal to `2.5`, whatever the bid requests and the context
are. -/
theorem outbound_method_and_headers (rs outs : List JSVal) (c : JSVal)
    (hbuild : buildRequests rs c = .ok outs) :
    outs.length = rs.length ∧
    ∀ (i : Nat) (r : JSVal), rs[i]? = some r →
      ∃ out options headers, outs[i]? = some out ∧
        out.get "method" = .ok (str "POST") ∧
        out.get "options" = .ok options ∧
        options.get "contentType" = .ok (str "application/json") ∧
        options.get "customHeaders" = .ok headers ∧
        headers.get "x-openrtb-version" = .ok (num "2.5") := by
  obtain ⟨hl, hall⟩ := buildRequests_getElem_values rs outs c hbuild
  refine ⟨hl, ?_⟩
  intro i r hr
  obtain ⟨params, pageId, adUnitId, banner, bidId, -, -, -, -, -, hout⟩ := hall i r hr
  exact ⟨_, _, _, hout, rfl, rfl, rfl, rfl, rfl⟩

theorem outbound_method_and_headers_witness :
    [sampleOutbound].length = [sampleBidRequest].length ∧
    ∀ (i : Nat) (r : JSVal), [sampleBidRequest][i]? = some r →
      ∃ out options headers, [sampleOutbound][i]? = some out ∧
        out.get "method" = .ok (str "POST") ∧
        out.get "options" = .ok options ∧
        options.get "contentType" = .ok (str "application/json") ∧
        options.get "customHeaders" = .ok headers ∧
        headers.get "x-openrtb-version" = .ok (num "2.5") :=
  outbound_method_and_headers [sampleBidRequest] [sampleOutbound] sampleContext rfl

/-- C15 (as stated, refuted): `nullEntrySizesRequest` carries `params` and
declares banner support, its effective size list `[[300, 250], null]` is
neither empty nor missing, and `buildRequests` raises on it, at the read of
`size[0]` on the `null` entry. -/
theorem buildRequests_fails_on_null_size_entry :
    carriesParams nullEntrySizesRequest = true ∧
    declaresBanner nullEntrySizesRequest = true ∧
    effectiveSizes nullEntrySizesRequest = arr [arr [num "300", num "250"], null] ∧
    sizeListEmptyOrMissing nullEntrySizesRequest = false ∧
    buildRequests [nullEntrySizesRequest] sampleContext =
      .error "TypeError: cannot read properties of null (reading 0)" :=
  ⟨rfl, rfl, rfl, rfl, rfl⟩

/-- C15 (amended): for a list of bid requests that all carry `params`,
`buildRequests` raises an error exactly when some request of the list declares
banner support and its effective size list is unusable: not a list (missing
included), empty, or with an `undefined` or `null` entry. An empty or missing
list is always unusable, and on a size list of the data model's type (missing,
or a list without `undefined` or `null` entries) unusable means empty or
missing. In particular a request whose own `sizes` is the empty list makes the
whole batch fail, whatever its `mediaTypes.banner.sizes` is, because the own
list is the one chosen. -/
theorem buildRequests_fails_iff (rs : List JSVal) (c : JSVal)
    (hparams : ∀ r ∈ rs, carriesParams r = true) :
    ((∃ e, buildRequests rs c = .error e) ↔
      ∃ r ∈ rs, declaresBanner r = true ∧ sizeListUnusable r = true) ∧
    (∀ r : JSVal, sizeListEmptyOrMissing r = true → sizeListUnusable r = true) ∧
    (∀ r : JSVal, sizeListTyped r = true →
      sizeListUnusable r = sizeListEmptyOrMissing r) ∧
    (∀ r ∈ rs, declaresBanner r = true → r.get "sizes" = .ok (arr []) →
      effectiveSizes r = arr [] ∧ ∃ e, buildRequests rs c = .error e) := by
  have hiff : (∃ e, buildRequests rs c = .error e) ↔
      ∃ r ∈ rs, declaresBanner r = true ∧ sizeListUnusable r = true := by
    rw [buildRequests_eq, arrayMap_error_iff]
    constructor
    · rintro ⟨r, hr, he⟩
      exact ⟨r, hr, (mapBanner_error_iff_unusable r).1
        ((buildRequest_error_iff _ _ _ _ c r (hparams r hr)).1 he)⟩
    · rintro ⟨r, hr, hb⟩
      exact ⟨r, hr, (buildRequest_error_iff _ _ _ _ c r (hparams r hr)).2
        ((mapBanner_error_iff_unusable r).2 hb)⟩
  refine ⟨hiff, sizeListUnusable_of_emptyOrMissing, sizeListUnusable_of_typed, ?_⟩
  intro r hr hb hs
  have he := effectiveSizes_own r [] hs
  refine ⟨he, hiff.2 ⟨r, hr, hb, ?_⟩⟩
  unfold sizeListUnusable
  rw [he]
  rfl

theorem buildRequests_fails_iff_witness :
    ((∃ e, buildRequests [sampleBidRequest, emptySizesRequest] sampleContext = .error e) ↔
      ∃ r ∈ [sampleBidRequest, emptySizesRequest],
        declaresBanner r = true ∧ sizeListUnusable r = true) ∧
    (∀ r : JSVal, sizeListEmptyOrMissing r = true → sizeListUnusable r = true) ∧
    (∀ r : JSVal, sizeListTyped r = true →
      sizeListUnusable r = sizeListEmptyOrMissing r) ∧
    (∀ r ∈ [sampleBidRequest, emptySizesRequest], declaresBanner r = true →
      r.get "sizes" = .ok (arr []) →
      effectiveSizes r = arr [] ∧
        ∃ e, buildRequests [sampleBidRequest, emptySizesRequest] sampleContext = .error e) :=
  buildRequests_fails_iff [sampleBidRequest, emptySizesRequest] sampleContext
    (fun r hr => by
      simp only [List.mem_cons, List.mem_singleton, List.not_mem_nil, or_false] at hr
      rcases hr with rfl | rfl <;> rfl)

/-- C16: `buildRequests` treats each bid request on its own. When it succeeds
on `xs` and on `ys` it succeeds on `xs ++ ys` with the concatenated result,
and conversely a success on `xs ++ ys` splits into successes on `xs` and on
`ys`; the outbound request at any position is the one `buildRequests` yields
for that bid request alone. -/
theorem buildRequests_append (xs ys a b : List JSVal) (c : JSVal)
    (ha : buildRequests xs c = .ok a) (hb : buildRequests ys c = .ok b) :
    buildRequests (xs ++ ys) c = .ok (a ++ b) ∧
    (∀ o, buildRequests (xs ++ ys) c = .ok o →
      ∃ a' b', buildRequests xs c = .ok a' ∧ buildRequests ys c = .ok b' ∧ o = a' ++ b') ∧
    (∀ (i : Nat) (r : JSVal), (xs ++ ys)[i]? = some r →
      ∃ out, (a ++ b)[i]? = some out ∧ buildRequests [r] c = .ok [out]) := by
  rw [buildRequests_eq] at ha hb
  have hab := arrayMap_append_ok _ xs ys a b ha hb
  refine ⟨by rw [buildRequests_eq]; exact hab, ?_, ?_⟩
  · intro o ho
    rw [buildRequests_eq] at ho
    obtain ⟨a', b', ha', hb', rfl⟩ := arrayMap_append_split _ xs ys o ho
    exact ⟨a', b', by rw [buildRequests_eq]; exact ha', by rw [buildRequests_eq]; exact hb', rfl⟩
  · intro i r hr
    obtain ⟨out, hout, hf⟩ := (arrayMap_getElem _ _ _ hab).2 i r hr
    exact ⟨out, hout, by rw [buildRequests_eq]; exact arrayMap_singleton _ r out hf⟩

theorem buildRequests_append_witness :
    buildRequests ([sampleBidRequest] ++ [sampleBidRequest]) sampleContext =
      .ok ([sampleOutbound] ++ [sampleOutbound]) ∧
    (∀ o, buildRequests ([sampleBidRequest] ++ [sampleBidRequest]) sampleContext = .ok o →
      ∃ a' b', buildRequests [sampleBidRequest] sampleContext = .ok a' ∧
        buildRequests [sampleBidRequest] sampleContext = .ok b' ∧ o = a' ++ b') ∧
    (∀ (i : Nat) (r : JSVal), ([sampleBidRequest] ++ [sampleBidRequest])[i]? = some r →
      ∃ out, ([sampleOutbound] ++ [sampleOutbound])[i]? = some out ∧
        buildRequests [r] sampleContext = .ok [out]) :=
  buildRequests_append [sampleBidRequest] [sampleBidRequest] [sampleOutbound]
    [sampleOutbound] sampleContext rfl rfl

/-- C17: `interpretResponse` depends on the originating request only through
the `bidId` of its bid request: for one server response and two originating
requests whose `bidRequest.bidId` are equal, the two results are equal,
whatever else the requests hold. -/
theorem interpretResponse_depends_on_bidId (resp req1 req2 br1 br2 id : JSVal)
    (hbr1 : req1.get "bidRequest" = .ok br1) (hid1 : br1.get "bidId" = .ok id)
    (hbr2 : req2.get "bidRequest" = .ok br2) (hid2 : br2.get "bidId" = .ok id) :
    interpretResponse resp req1 = interpretResponse resp req2 :=
  interpretResponse_congr resp req1 req2 br1 br2 id hbr1 hid1 hbr2 hid2

theorem interpretResponse_depends_on_bidId_witness :
    interpretResponse sampleResponse sampleOutbound =
      interpretResponse sampleResponse otherOutbound :=
  interpretResponse_depends_on_bidId sampleResponse sampleOutbound otherOutbound
    sampleBidRequest
    (obj [("bidId", str "b1"), ("sizes", arr [arr [num "970", num "250"]])])
    (str "b1") rfl rfl rfl rfl

/-- C18: a bid request that carries `params` and does not declare banner
support still gets its outbound request: `buildRequests` on it alone succeeds,
and in any successful batch its outbound request has a single impression whose
`id` is `params.adUnitId` and whose `banner` is `undefined`, whatever `sizes`
the request has of its own. -/
theorem no_banner_still_emitted (r params c : JSVal)
    (hp : r.get "params" = .ok params) (hn : params.isNullish = false)
    (hnb : declaresBanner r = false) :
    ∃ adUnitId, params.get "adUnitId" = .ok adUnitId ∧
      (∃ out data, buildRequests [r] c = .ok [out] ∧ out.get "data" = .ok data ∧
        data.get "imp" = .ok (arr [obj [("id", adUnitId), ("banner", undefined)]])) ∧
      (∀ (rs outs : List JSVal) (i : Nat), buildRequests rs c = .ok outs →
        rs[i]? = some r →
        ∃ out data, outs[i]? = some out ∧ out.get "data" = .ok data ∧
          data.get "imp" = .ok (arr [obj [("id", adUnitId), ("banner", undefined)]])) := by
  have hban := mapBanner_no_banner r hnb
  refine ⟨params.field "adUnitId", get_of_not_nullish params _ hn, ?_, ?_⟩
  · have hone := arrayMap_singleton _ r _
      (buildRequest_total (refererValues c).1 (refererValues c).2.1 (refererValues c).2.2
        (timeoutValue c) c r params undefined hp hn hban)
    rw [← buildRequests_eq] at hone
    exact ⟨_, _, hone, rfl, rfl⟩
  · intro rs outs i hbuild hr
    obtain ⟨-, hall⟩ := buildRequests_getElem_values rs outs c hbuild
    obtain ⟨params', pageId, adUnitId, banner, bidId, hp', -, hau, hb', -, hout⟩ := hall i r hr
    rw [hp] at hp'
    cases hp'
    rw [hban] at hb'
    cases hb'
    rw [get_of_not_nullish params _ hn] at hau
    cases hau
    exact ⟨_, _, hout, rfl, rfl⟩

theorem no_banner_still_emitted_witness :
    ∃ adUnitId,
      (obj [("adUnitId", str "unit-5"), ("pageId", str "page-1")]).get "adUnitId" =
        .ok adUnitId ∧
      (∃ out data, buildRequests [noBannerRequest] sampleContext = .ok [out] ∧
        out.get "data" = .ok data ∧
        data.get "imp" = .ok (arr [obj [("id", adUnitId), ("banner", undefined)]])) ∧
      (∀ (rs outs : List JSVal) (i : Nat), buildRequests rs sampleContext = .ok outs →
        rs[i]? = some noBannerRequest →
        ∃ out data, outs[i]? = some out ∧ out.get "data" = .ok data ∧
          data.get "imp" = .ok (arr [obj [("id", adUnitId), ("banner", undefined)]])) :=
  no_banner_still_emitted noBannerRequest
    (obj [("adUnitId", str "unit-5"), ("pageId", str "page-1")]) sampleContext rfl rfl rfl

end Wortal
